import Mathlib

/-!
Shallow embedding of the Castor repository (src/src/vector.c, src/src/stack.c).

The C vector stores `count` live elements of `object_size` bytes each in a
heap buffer of `capacity * object_size` bytes.  The embedding models the
buffer as a `List Nat` of bytes (`none` standing for the null pointer of an
unallocated vector), `memcpy`/`memmove`/`memset` as list surgery, and
`malloc`/`realloc` through an explicit allocation oracle: `none` means the
allocation fails, `some fresh` means it succeeds and the newly allocated
region holds the (arbitrary, uninitialised) bytes `fresh`.  The optional
VectorInterface hooks are modelled as functions on one element's bytes:
the deep-copy hook returns the bytes it writes into the destination
element or `none` when it reports failure, the deep-release hook may
rewrite the element's bytes in place.  Machine sizes are modelled as `Nat`;
no size computation in any reachable state comes near 2^64.
-/

namespace Castor

abbrev Byte := Nat

/-- Bytes `[off, off+len)` of a buffer, as read by a memcpy/memmove source. -/
def memRead (buf : List Byte) (off len : Nat) : List Byte :=
  (buf.drop off).take len

/-- Overwrite the bytes of `buf` starting at `off` with `bytes`. -/
def memWrite (buf : List Byte) (off : Nat) (bytes : List Byte) : List Byte :=
  buf.take off ++ bytes ++ buf.drop (off + bytes.length)

/-- C `memmove(buf+dst, buf+src, len)`: reads the whole source range first
(as if through a temporary), then writes it at `dst`. -/
def memmove (buf : List Byte) (dst src len : Nat) : List Byte :=
  memWrite buf dst (memRead buf src len)

/-- Byte at offset `k` (0 past the end; the lemmas below only use it in bounds). -/
def byteAt (buf : List Byte) (k : Nat) : Byte :=
  buf.getD k 0

/-- VectorInterface (include/castor/vector.h): optional deep-copy and
deep-release hooks.  `copy` maps the source element's bytes to the bytes it
writes into the destination element, or `none` when it returns false;
`release` may rewrite the element's bytes through the pointer it receives. -/
structure VInterface where
  copy : Option (List Byte → Option (List Byte))
  release : Option (List Byte → List Byte)

/-- struct Vector (src/src/vector.c lines 23-29). -/
structure Vector where
  content : Option (List Byte)
  object_size : Nat
  capacity : Nat
  count : Nat
  interface : Option VInterface

/-- struct VectorOptions (include/castor/vector.h). -/
structure VectorOptions where
  capacity : Nat
  interface : Option VInterface

/-- VECTOR_INTERFACE_OK(v, release): the release hook, when both the
interface pointer and the hook are non-null. -/
def interface_release : Option VInterface → Option (List Byte → List Byte)
  | none => none
  | some itf => itf.release

/-- VECTOR_INTERFACE_OK(v, copy): the deep-copy hook, when both the
interface pointer and the hook are non-null. -/
def interface_copy_fn : Option VInterface → Option (List Byte → Option (List Byte))
  | none => none
  | some itf => itf.copy

/-- vector_init (vector.c lines 32-39).  `this->content = malloc(...)` is
assigned before the null check, so a failed malloc stores the null pointer;
`capacity` is only set on success. -/
def vector_init (v : Vector) (capacity : Nat) (alloc : Option (List Byte)) :
    Bool × Vector :=
  match alloc with
  | none => (false, { v with content := none })
  | some fresh => (true, { v with content := some fresh, capacity := capacity })

/-- vector_construct (vector.c lines 41-57).  `structAlloc` is the oracle for
the calloc of the struct itself (zero-initialised fields), `alloc` the oracle
for the content buffer when `options.capacity > 0`. -/
def vector_construct (object_size : Nat) (options : VectorOptions)
    (structAlloc : Bool) (alloc : Option (List Byte)) : Option Vector :=
  if structAlloc = false then none
  else
    let v : Vector :=
      { content := none, object_size := object_size, capacity := 0, count := 0,
        interface := options.interface }
    if options.capacity > 0 then
      match vector_init v options.capacity alloc with
      | (true, v') => some v'
      | (false, _) => none
    else some v

/-- vector_get_unchecked (vector.c lines 59-61): the element bytes at `index`. -/
def vector_get_unchecked (v : Vector) (index : Nat) : List Byte :=
  memRead (v.content.getD []) (index * v.object_size) v.object_size

/-- vector_get (vector.c lines 63-68). -/
def vector_get (v : Vector) (index : Nat) : Option (List Byte) :=
  if v.count ≤ index then none
  else some (memRead (v.content.getD []) (index * v.object_size) v.object_size)

/-- vector_empty (vector.c lines 70-72). -/
def vector_empty (v : Vector) : Bool :=
  v.count == 0

/-- vector_unallocated (vector.c lines 74-76). -/
def vector_unallocated (v : Vector) : Bool :=
  v.content.isNone

/-- vector_walk (vector.c lines 78-87): applies the callback to each live
element in ascending index order; the callback mutates the element's bytes
through the address it receives. -/
def vector_walk (v : Vector) (callback : List Byte → List Byte) : Vector :=
  if vector_empty v then v
  else
    { v with content := some ((List.range v.count).foldl
        (fun buf i => memWrite buf (i * v.object_size)
          ((callback (memRead buf (i * v.object_size) v.object_size)).take v.object_size))
        (v.content.getD [])) }

/-- vector_reset (vector.c lines 89-100). -/
def vector_reset (v : Vector) : Vector :=
  if vector_empty v then v
  else
    match interface_release v.interface with
    | some rel => { vector_walk v rel with count := 0 }
    | none => { v with count := 0 }

/-- vector_release (vector.c lines 102-114). -/
def vector_release (v : Vector) : Vector :=
  if vector_unallocated v then v
  else
    { vector_reset v with content := none, capacity := 0 }

/-- vector_resize (vector.c lines 127-140): realloc keeps the old bytes up to
the new size and appends fresh (arbitrary) bytes beyond them; on failure
nothing changes. -/
def vector_resize (v : Vector) (new_capacity : Nat) (alloc : Option (List Byte)) :
    Bool × Vector :=
  match alloc with
  | none => (false, v)
  | some fresh =>
    (true, { v with
      content := some (((v.content.getD []) ++ fresh).take (new_capacity * v.object_size)),
      capacity := new_capacity })

/-- New capacity computed by vector_grow (vector.c lines 143-145):
`capacity + n`, defaulting to 16 when that sum is 0. -/
def grow_capacity (capacity n : Nat) : Nat :=
  if capacity + n = 0 then 16 else capacity + n

/-- vector_grow (vector.c lines 142-153). -/
def vector_grow (v : Vector) (n : Nat) (alloc : Option (List Byte)) :
    Bool × Vector :=
  if vector_unallocated v then vector_init v (grow_capacity v.capacity n) alloc
  else vector_resize v (grow_capacity v.capacity n) alloc

/-- vector_full (vector.c lines 155-157). -/
def vector_full (v : Vector) : Bool :=
  v.count == v.capacity

/-- The growth preamble shared by push_back, push_front and insert
(vector.c lines 160-164, 174-178 and 316-320): when full, grow by the
current capacity; otherwise proceed unchanged. -/
def grow_if_full (v : Vector) (alloc : Option (List Byte)) : Bool × Vector :=
  if vector_full v then vector_grow v v.capacity alloc else (true, v)

/-- vector_push_back (vector.c lines 159-171). -/
def vector_push_back (v : Vector) (object : List Byte) (alloc : Option (List Byte)) :
    Bool × Vector :=
  match grow_if_full v alloc with
  | (false, v') => (false, v')
  | (true, v') =>
    (true, { v' with
      content := some (memWrite (v'.content.getD []) (v'.count * v'.object_size)
        (object.take v'.object_size)),
      count := v'.count + 1 })

/-- vector_push_front (vector.c lines 173-191): shifts all `count` elements
one slot toward higher addresses, then writes the new element at slot 0. -/
def vector_push_front (v : Vector) (object : List Byte) (alloc : Option (List Byte)) :
    Bool × Vector :=
  match grow_if_full v alloc with
  | (false, v') => (false, v')
  | (true, v') =>
    (true, { v' with
      content := some (memWrite
        (memmove (v'.content.getD []) v'.object_size 0 (v'.count * v'.object_size))
        0 (object.take v'.object_size)),
      count := v'.count + 1 })

/-- Single-element deep-release (the VECTOR_INTERFACE_OK(this, release) guard
followed by the hook call): rewrites the element's bytes in place when a
release hook is available, otherwise leaves the buffer alone. -/
def apply_release (itf : Option VInterface) (buf : List Byte) (off len : Nat) :
    List Byte :=
  match interface_release itf with
  | some rel => memWrite buf off ((rel (memRead buf off len)).take len)
  | none => buf

/-- vector_discard_back (vector.c lines 193-208). -/
def vector_discard_back (v : Vector) : Bool × Vector :=
  if vector_empty v then (false, v)
  else
    let v' : Vector := { v with count := v.count - 1 }
    (true, { v' with content := some (apply_release v'.interface
      (v'.content.getD []) (v'.count * v'.object_size) v'.object_size) })

/-- vector_discard_front (vector.c lines 210-229).  The gap-closing
memmove copies `count * object_size` bytes (not `(count-1) * object_size`)
from offset `object_size`, exactly as the source does. -/
def vector_discard_front (v : Vector) : Bool × Vector :=
  if vector_empty v then (false, v)
  else
    let buf := apply_release v.interface (v.content.getD []) 0 v.object_size
    let buf := memmove buf 0 v.object_size (v.count * v.object_size)
    (true, { v with content := some buf, count := v.count - 1 })

/-- vector_discard (vector.c lines 231-250). -/
def vector_discard (v : Vector) (index : Nat) : Bool × Vector :=
  if vector_empty v ∨ v.count ≤ index then (false, v)
  else
    let buf := apply_release v.interface (v.content.getD [])
      (index * v.object_size) v.object_size
    let buf := memmove buf (index * v.object_size) ((index + 1) * v.object_size)
      ((v.count - index - 1) * v.object_size)
    (true, { v with content := some buf, count := v.count - 1 })

/-- vector_pop_back (vector.c lines 252-263).  The third component is the
caller's output buffer after the memcpy into it. -/
def vector_pop_back (v : Vector) (object : List Byte) : Bool × Vector × List Byte :=
  if vector_empty v then (false, v, object)
  else
    let src := memRead (v.content.getD []) ((v.count - 1) * v.object_size) v.object_size
    (true, { v with count := v.count - 1 }, memWrite object 0 src)

/-- vector_pop_front (vector.c lines 265-279).  As in the source, the
gap-closing memmove copies `count * object_size` bytes from offset
`object_size`. -/
def vector_pop_front (v : Vector) (object : List Byte) : Bool × Vector × List Byte :=
  if vector_empty v then (false, v, object)
  else
    let out := memWrite object 0 (memRead (v.content.getD []) 0 v.object_size)
    let buf := memmove (v.content.getD []) 0 v.object_size (v.count * v.object_size)
    (true, { v with content := some buf, count := v.count - 1 }, out)

/-- vector_pop (vector.c lines 281-298). -/
def vector_pop (v : Vector) (object : List Byte) (index : Nat) :
    Bool × Vector × List Byte :=
  if vector_empty v ∨ v.count ≤ index then (false, v, object)
  else
    let out := memWrite object 0
      (memRead (v.content.getD []) (index * v.object_size) v.object_size)
    let buf := memmove (v.content.getD []) (index * v.object_size)
      ((index + 1) * v.object_size) ((v.count - index - 1) * v.object_size)
    (true, { v with content := some buf, count := v.count - 1 }, out)

/-- vector_set (vector.c lines 300-309). -/
def vector_set (v : Vector) (index : Nat) (object : List Byte) : Bool × Vector :=
  if vector_empty v ∨ v.count ≤ index then (false, v)
  else
    (true, { v with content := some (memWrite (v.content.getD [])
      (index * v.object_size) (object.take v.object_size)) })

/-- vector_insert (vector.c lines 311-333). -/
def vector_insert (v : Vector) (index : Nat) (object : List Byte)
    (alloc : Option (List Byte)) : Bool × Vector :=
  if vector_empty v ∨ v.count ≤ index then (false, v)
  else
    match grow_if_full v alloc with
    | (false, v') => (false, v')
    | (true, v') =>
      let buf := memmove (v'.content.getD []) ((index + 1) * v'.object_size)
        (index * v'.object_size) ((v'.count - index) * v'.object_size)
      (true, { v' with
        content := some (memWrite buf (index * v'.object_size) (object.take v'.object_size)),
        count := v'.count + 1 })

/-- The bytes the deep-copy loop of vector_copy writes into clone slot `i`
(vector.c lines 362-370): the hook is called with the source element at `i`
and its output lands in the destination slot; when it reports failure the
slot is zero-filled by memset. -/
def copyWrite (v : Vector) (hook : List Byte → Option (List Byte)) (i : Nat) :
    List Byte :=
  match hook (memRead (v.content.getD []) (i * v.object_size) v.object_size) with
  | some bytes => bytes.take v.object_size
  | none => List.replicate v.object_size 0

/-- vector_copy (vector.c lines 335-373).  The raw memcpy and the per-element
loop write through the clone's buffer pointer (modelled with Option.map): an
unallocated clone, which only arises with count 0, stays unallocated, matching
the zero-length copy through the null pointer.  The loop runs over
`List.range v.count`, i.e. over the live elements in ascending index order,
invoking the hook once per element. -/
def vector_copy (v : Vector) (shrink_to_fit : Bool) (structAlloc : Bool)
    (alloc : Option (List Byte)) : Option Vector :=
  let options : VectorOptions :=
    { capacity := if shrink_to_fit then v.count else v.capacity,
      interface := v.interface }
  if shrink_to_fit && vector_empty v then
    vector_construct v.object_size { options with capacity := 0 } structAlloc alloc
  else
    match vector_construct v.object_size options structAlloc alloc with
    | none => none
    | some c0 =>
      let c : Vector := { c0 with count := v.count }
      match interface_copy_fn c.interface with
      | none =>
        some { c with content := c.content.map (fun buf => memWrite buf 0
          (memRead (v.content.getD []) 0 (v.count * v.object_size))) }
      | some hook =>
        some { c with content := c.content.map (fun buf => (List.range v.count).foldl
          (fun b i => memWrite b (i * v.object_size) (copyWrite v hook i)) buf) }

/-- vector_get_back (vector.c lines 375-380). -/
def vector_get_back (v : Vector) : Option (List Byte) :=
  if vector_empty v then none
  else some (vector_get_unchecked v (v.count - 1))

/-- vector_get_front (vector.c lines 382-387). -/
def vector_get_front (v : Vector) : Option (List Byte) :=
  if vector_empty v then none
  else some (vector_get_unchecked v 0)

/-- Destination offset, source offset and byte length of the gap-closing
memmove in vector_pop_front (vector.c line 275):
`memmove(src, src + object_size, count * object_size)` with `src` the start
of the buffer. -/
def pop_front_shift (v : Vector) : Nat × Nat × Nat :=
  (0, v.object_size, v.count * v.object_size)

/-- Destination offset, source offset and byte length of the gap-closing
memmove in vector_discard_front (vector.c line 225):
`memmove(content, content + object_size, count * object_size)`. -/
def discard_front_shift (v : Vector) : Nat × Nat × Nat :=
  (0, v.object_size, v.count * v.object_size)

/-- Destination offset, source offset and byte length of the gap-closing
memmove in vector_discard (vector.c line 246). -/
def discard_shift (v : Vector) (index : Nat) : Nat × Nat × Nat :=
  (index * v.object_size, (index + 1) * v.object_size,
    (v.count - index - 1) * v.object_size)

/-- Destination offset, source offset and byte length of the gap-closing
memmove in vector_pop (vector.c line 294). -/
def pop_shift (v : Vector) (index : Nat) : Nat × Nat × Nat :=
  (index * v.object_size, (index + 1) * v.object_size,
    (v.count - index - 1) * v.object_size)

/-- struct Stack (src/src/stack.c lines 7-9). -/
structure Stack where
  vector : Vector

/-- stack_construct (stack.c lines 12-25). -/
def stack_construct (object_size : Nat) (options : VectorOptions)
    (stackAlloc structAlloc : Bool) (alloc : Option (List Byte)) : Option Stack :=
  if stackAlloc = false then none
  else
    match vector_construct object_size options structAlloc alloc with
    | none => none
    | some v => some ⟨v⟩

/-- stack_push (stack.c lines 36-38). -/
def stack_push (s : Stack) (object : List Byte) (alloc : Option (List Byte)) :
    Bool × Stack :=
  let r := vector_push_back s.vector object alloc
  (r.1, ⟨r.2⟩)

/-- stack_pop (stack.c lines 40-42). -/
def stack_pop (s : Stack) (object : List Byte) : Bool × Stack × List Byte :=
  let r := vector_pop_back s.vector object
  (r.1, ⟨r.2.1⟩, r.2.2)

/-- stack_empty (stack.c lines 44-46). -/
def stack_empty (s : Stack) : Bool :=
  vector_empty s.vector

/-- stack_peek (stack.c lines 48-50). -/
def stack_peek (s : Stack) : Option (List Byte) :=
  vector_get_back s.vector

/-- stack_copy (stack.c lines 52-65). -/
def stack_copy (s : Stack) (shrink_to_fit : Bool) (stackAlloc structAlloc : Bool)
    (alloc : Option (List Byte)) : Option Stack :=
  if stackAlloc = false then none
  else
    match vector_copy s.vector shrink_to_fit structAlloc alloc with
    | none => none
    | some v => some ⟨v⟩

/-- The representation invariant of struct Vector (spec section 3):
`count ≤ capacity`, `content == null ⟺ capacity == 0`, and the buffer holds
exactly `capacity * object_size` bytes. -/
def WF (v : Vector) : Prop :=
  v.count ≤ v.capacity ∧ (v.content = none ↔ v.capacity = 0) ∧
    (v.content.getD []).length = v.capacity * v.object_size

instance (v : Vector) : Decidable (WF v) := by
  unfold WF; infer_instance

/-- Well-formedness of an allocation oracle: a successful allocation returns
a region of exactly the requested size. -/
def AllocOk : Option (List Byte) → Nat → Prop
  | none, _ => True
  | some fresh, size => fresh.length = size

instance (a : Option (List Byte)) (s : Nat) : Decidable (AllocOk a s) :=
  match a with
  | none => isTrue trivial
  | some fresh => inferInstanceAs (Decidable (fresh.length = s))

/-- A freshly constructed, unallocated vector of 1-byte objects. -/
def sampleEmpty : Vector :=
  { content := none, object_size := 1, capacity := 0, count := 0, interface := none }

/-- A full vector (count == capacity) of two 1-byte objects. -/
def sampleFull : Vector :=
  { content := some [10, 20], object_size := 1, capacity := 2, count := 2,
    interface := none }

/-- A non-full vector (count < capacity) of 1-byte objects. -/
def sampleSlack : Vector :=
  { content := some [10, 20], object_size := 1, capacity := 2, count := 1,
    interface := none }

/-- A full vector of three 1-byte objects. -/
def sampleVec3 : Vector :=
  { content := some [5, 6, 7], object_size := 1, capacity := 3, count := 3,
    interface := none }

/-- A deep-copy hook that always reports failure. -/
def failHook : List Byte → Option (List Byte) :=
  fun _ => none

/-- A full two-element vector whose interface supplies the always-failing
deep-copy hook. -/
def sampleHooked : Vector :=
  { content := some [7, 9], object_size := 1, capacity := 2, count := 2,
    interface := some { copy := some failHook, release := none } }

/-- The clone vector_copy builds from sampleHooked: every element zero-filled. -/
def sampleHookedClone : Vector :=
  { content := some [0, 0], object_size := 1, capacity := 2, count := 2,
    interface := some { copy := some failHook, release := none } }

/-- The clone vector_copy builds from sampleFull. -/
def sampleCloneFull : Vector :=
  { content := some [10, 20], object_size := 1, capacity := 2, count := 2,
    interface := none }

/-- An empty stack over an unallocated vector of 1-byte objects. -/
def sampleStack : Stack :=
  ⟨sampleEmpty⟩

lemma length_memWrite (buf bytes : List Byte) (off : Nat)
    (h : off + bytes.length ≤ buf.length) :
    (memWrite buf off bytes).length = buf.length := by
  simp [memWrite]; omega

lemma length_memRead (buf : List Byte) (off len : Nat)
    (h : off + len ≤ buf.length) :
    (memRead buf off len).length = len := by
  simp [memRead]; omega

lemma length_memmove (buf : List Byte) (dst src len : Nat)
    (h : dst + len ≤ buf.length) :
    (memmove buf dst src len).length = buf.length := by
  simp [memmove, memWrite, memRead]; omega

lemma getElem?_memWrite (buf bytes : List Byte) (off k : Nat)
    (h : off + bytes.length ≤ buf.length) :
    (memWrite buf off bytes)[k]? =
      if off ≤ k ∧ k < off + bytes.length then bytes[k - off]? else buf[k]? := by
  have hoff : (buf.take off).length = off := by simp [List.length_take]; omega
  unfold memWrite
  rcases Nat.lt_or_ge k off with h1 | h1
  · rw [List.getElem?_append, List.length_append, hoff, if_pos (by omega),
      List.getElem?_append, hoff, if_pos h1, List.getElem?_take, if_pos h1,
      if_neg (by omega)]
  · rcases Nat.lt_or_ge k (off + bytes.length) with h2 | h2
    · rw [List.getElem?_append, List.length_append, hoff, if_pos (by omega),
        List.getElem?_append, hoff, if_neg (by omega), if_pos ⟨h1, h2⟩]
    · rw [List.getElem?_append, List.length_append, hoff, if_neg (by omega),
        List.getElem?_drop, if_neg (by omega)]
      congr 1
      omega

lemma byteAt_memWrite (buf bytes : List Byte) (off k : Nat)
    (h : off + bytes.length ≤ buf.length) :
    byteAt (memWrite buf off bytes) k =
      if off ≤ k ∧ k < off + bytes.length then byteAt bytes (k - off) else byteAt buf k := by
  unfold byteAt
  rw [List.getD_eq_getElem?_getD, getElem?_memWrite buf bytes off k h]
  split <;> rw [List.getD_eq_getElem?_getD]

lemma getElem?_memRead (buf : List Byte) (off len k : Nat) (hk : k < len) :
    (memRead buf off len)[k]? = buf[off + k]? := by
  unfold memRead
  rw [List.getElem?_take, if_pos hk, List.getElem?_drop]

lemma byteAt_memRead (buf : List Byte) (off len k : Nat) (hk : k < len) :
    byteAt (memRead buf off len) k = byteAt buf (off + k) := by
  unfold byteAt
  rw [List.getD_eq_getElem?_getD, getElem?_memRead buf off len k hk,
    List.getD_eq_getElem?_getD]

lemma byteAt_memmove (buf : List Byte) (dst src len k : Nat)
    (hs : src + len ≤ buf.length) (hd : dst + len ≤ buf.length) :
    byteAt (memmove buf dst src len) k =
      if dst ≤ k ∧ k < dst + len then byteAt buf (src + (k - dst)) else byteAt buf k := by
  unfold memmove
  have hlen : (memRead buf src len).length = len := length_memRead buf src len hs
  rw [byteAt_memWrite _ _ _ _ (by rw [hlen]; exact hd), hlen]
  split
  · next hc => rw [byteAt_memRead _ _ _ _ (by omega)]
  · rfl

lemma list_eq_of_byteAt (l₁ l₂ : List Byte) (hlen : l₁.length = l₂.length)
    (h : ∀ k, k < l₁.length → byteAt l₁ k = byteAt l₂ k) : l₁ = l₂ := by
  apply List.ext_getElem hlen
  intro i h1 h2
  have hb := h i h1
  unfold byteAt at hb
  rw [List.getD_eq_getElem?_getD, List.getD_eq_getElem?_getD,
    List.getElem?_eq_getElem h1, List.getElem?_eq_getElem h2] at hb
  simpa using hb

lemma memRead_eq_of_byteAt (b₁ b₂ : List Byte) (off₁ off₂ len : Nat)
    (h₁ : off₁ + len ≤ b₁.length) (h₂ : off₂ + len ≤ b₂.length)
    (h : ∀ j, j < len → byteAt b₁ (off₁ + j) = byteAt b₂ (off₂ + j)) :
    memRead b₁ off₁ len = memRead b₂ off₂ len := by
  apply list_eq_of_byteAt
  · rw [length_memRead b₁ off₁ len h₁, length_memRead b₂ off₂ len h₂]
  · intro k hk
    rw [length_memRead b₁ off₁ len h₁] at hk
    rw [byteAt_memRead _ _ _ _ hk, byteAt_memRead _ _ _ _ hk]
    exact h k hk

lemma byteAt_take_append (old fresh : List Byte) (n k : Nat)
    (hk : k < old.length) (hkn : k < n) :
    byteAt ((old ++ fresh).take n) k = byteAt old k := by
  unfold byteAt
  rw [List.getD_eq_getElem?_getD, List.getElem?_take, if_pos hkn,
    List.getElem?_append, if_pos hk, List.getD_eq_getElem?_getD]

lemma byteAt_take (l : List Byte) (n k : Nat) (hk : k < n) :
    byteAt (l.take n) k = byteAt l k := by
  unfold byteAt
  rw [List.getD_eq_getElem?_getD, List.getElem?_take, if_pos hk,
    List.getD_eq_getElem?_getD]

lemma grow_capacity_pos (c n : Nat) : 0 < grow_capacity c n := by
  unfold grow_capacity; split <;> omega

lemma grow_capacity_le (c n : Nat) : c ≤ grow_capacity c n := by
  unfold grow_capacity; split <;> omega

lemma grow_fail (v : Vector) (n : Nat) (alloc : Option (List Byte))
    (hfail : (vector_grow v n alloc).1 = false) :
    (vector_grow v n alloc).2 = v := by
  unfold vector_grow vector_init vector_resize at *
  by_cases hun : vector_unallocated v = true
  · rw [if_pos hun] at hfail ⊢
    have hc : v.content = none := by
      unfold vector_unallocated at hun
      exact Option.isNone_iff_eq_none.mp hun
    rcases alloc with _ | fresh
    · cases v
      simp_all
    · simp at hfail
  · rw [if_neg hun] at hfail ⊢
    rcases alloc with _ | fresh
    · rfl
    · simp at hfail

lemma grow_spec (v : Vector) (n : Nat) (alloc : Option (List Byte)) (hwf : WF v)
    (halloc : AllocOk alloc (grow_capacity v.capacity n * v.object_size))
    (hsucc : (vector_grow v n alloc).1 = true) :
    (vector_grow v n alloc).2.capacity = grow_capacity v.capacity n ∧
    (vector_grow v n alloc).2.count = v.count ∧
    (vector_grow v n alloc).2.object_size = v.object_size ∧
    (vector_grow v n alloc).2.interface = v.interface ∧
    WF (vector_grow v n alloc).2 ∧
    ∀ k, k < v.capacity * v.object_size →
      byteAt ((vector_grow v n alloc).2.content.getD []) k
        = byteAt (v.content.getD []) k := by
  obtain ⟨hcnt, hnull, hlen⟩ := hwf
  have hgpos : grow_capacity v.capacity n ≠ 0 := Nat.ne_of_gt (grow_capacity_pos _ _)
  have hgle : v.capacity ≤ grow_capacity v.capacity n := grow_capacity_le _ _
  unfold vector_grow at *
  by_cases hun : vector_unallocated v = true
  · rw [if_pos hun] at hsucc ⊢
    have hc : v.content = none := by
      unfold vector_unallocated at hun
      exact Option.isNone_iff_eq_none.mp hun
    have hcap0 : v.capacity = 0 := hnull.mp hc
    rcases alloc with _ | fresh
    · simp [vector_init] at hsucc
    · refine ⟨rfl, rfl, rfl, rfl, ⟨?_, ?_, ?_⟩, ?_⟩
      · show v.count ≤ grow_capacity v.capacity n
        omega
      · show some fresh = none ↔ grow_capacity v.capacity n = 0
        simp [hgpos]
      · show ((some fresh).getD []).length = grow_capacity v.capacity n * v.object_size
        exact halloc
      · intro k hk
        rw [hcap0, Nat.zero_mul] at hk
        exact absurd hk (Nat.not_lt_zero k)
  · rw [if_neg hun] at hsucc ⊢
    rcases alloc with _ | fresh
    · simp [vector_resize] at hsucc
    · have hfl : fresh.length = grow_capacity v.capacity n * v.object_size := halloc
      have hble : v.capacity * v.object_size ≤ grow_capacity v.capacity n * v.object_size :=
        Nat.mul_le_mul_right _ hgle
      refine ⟨rfl, rfl, rfl, rfl, ⟨?_, ?_, ?_⟩, ?_⟩
      · show v.count ≤ grow_capacity v.capacity n
        omega
      · show some (((v.content.getD []) ++ fresh).take _) = none
          ↔ grow_capacity v.capacity n = 0
        simp [hgpos]
      · show ((((v.content.getD []) ++ fresh).take
          (grow_capacity v.capacity n * v.object_size)).length)
          = grow_capacity v.capacity n * v.object_size
        simp [List.length_take]
        omega
      · intro k hk
        show byteAt (((v.content.getD []) ++ fresh).take
          (grow_capacity v.capacity n * v.object_size)) k = byteAt (v.content.getD []) k
        exact byteAt_take_append _ fresh _ k (by omega) (by omega)

lemma grow_if_full_fail (v : Vector) (alloc : Option (List Byte))
    (hfail : (grow_if_full v alloc).1 = false) :
    (grow_if_full v alloc).2 = v := by
  unfold grow_if_full at *
  by_cases hfull : vector_full v = true
  · rw [if_pos hfull] at hfail ⊢
    exact grow_fail v v.capacity alloc hfail
  · rw [if_neg hfull] at hfail
    simp at hfail

lemma memRead_memWrite_self (buf bytes : List Byte) (off : Nat)
    (h : off + bytes.length ≤ buf.length) :
    memRead (memWrite buf off bytes) off bytes.length = bytes := by
  have hw : (memWrite buf off bytes).length = buf.length := length_memWrite buf bytes off h
  apply list_eq_of_byteAt
  · rw [length_memRead _ _ _ (by omega)]
  · intro k hk
    rw [length_memRead _ _ _ (by omega)] at hk
    rw [byteAt_memRead _ _ _ _ hk, byteAt_memWrite buf bytes off _ h,
      if_pos ⟨Nat.le_add_right _ _, by omega⟩]
    congr 1
    omega

lemma memRead_memWrite_disjoint (buf bytes : List Byte) (off roff len : Nat)
    (h : off + bytes.length ≤ buf.length)
    (hdisj : roff + len ≤ off ∨ off + bytes.length ≤ roff)
    (hr : roff + len ≤ buf.length) :
    memRead (memWrite buf off bytes) roff len = memRead buf roff len := by
  have hw : (memWrite buf off bytes).length = buf.length := length_memWrite buf bytes off h
  apply list_eq_of_byteAt
  · rw [length_memRead _ _ _ (by omega), length_memRead _ _ _ hr]
  · intro k hk
    rw [length_memRead _ _ _ (by omega)] at hk
    rw [byteAt_memRead _ _ _ _ hk, byteAt_memRead _ _ _ _ hk,
      byteAt_memWrite buf bytes off _ h, if_neg (by omega)]

lemma memWrite_zero_full (object bytes : List Byte) (h : object.length ≤ bytes.length) :
    memWrite object 0 bytes = bytes := by
  unfold memWrite
  simp [List.drop_eq_nil_of_le h]

lemma length_apply_release (itf : Option VInterface) (buf : List Byte) (off len : Nat)
    (h : off + len ≤ buf.length) :
    (apply_release itf buf off len).length = buf.length := by
  unfold apply_release
  rcases interface_release itf with _ | rel
  · rfl
  · apply length_memWrite
    have : ((rel (memRead buf off len)).take len).length ≤ len := by
      simp [List.length_take]
    omega

lemma walk_fold_length (os : Nat) (cb : List Byte → List Byte) :
    ∀ (idxs : List Nat) (buf : List Byte), (∀ i ∈ idxs, i * os + os ≤ buf.length) →
      (idxs.foldl
        (fun b i => memWrite b (i * os) ((cb (memRead b (i * os) os)).take os))
        buf).length = buf.length
  | [], _, _ => rfl
  | i :: rest, buf, h => by
    have hbnd : ((cb (memRead buf (i * os) os)).take os).length ≤ os := by
      simp [List.length_take]
    have hi := h i (by simp)
    have hstep :
        (memWrite buf (i * os) ((cb (memRead buf (i * os) os)).take os)).length
          = buf.length := by
      apply length_memWrite
      omega
    rw [List.foldl_cons,
      walk_fold_length os cb rest _
        (by intro j hj; rw [hstep]; exact h j (by simp [hj])),
      hstep]

lemma foldl_memWrite_spec (os : Nat) (write : Nat → List Byte)
    (hw : ∀ i, (write i).length = os) :
    ∀ (idxs : List Nat) (buf : List Byte), (∀ i ∈ idxs, i * os + os ≤ buf.length) →
      ((idxs.foldl (fun b i => memWrite b (i * os) (write i)) buf).length = buf.length ∧
       ∀ j, j * os + os ≤ buf.length →
         memRead (idxs.foldl (fun b i => memWrite b (i * os) (write i)) buf) (j * os) os =
           (if j ∈ idxs then write j else memRead buf (j * os) os))
  | [], buf, _ => by
    refine ⟨rfl, ?_⟩
    intro j _
    simp
  | i :: rest, buf, h => by
    have hi := h i (by simp)
    have hwl : i * os + (write i).length ≤ buf.length := by rw [hw i]; omega
    have hstep : (memWrite buf (i * os) (write i)).length = buf.length :=
      length_memWrite buf (write i) (i * os) hwl
    have hrest : ∀ j ∈ rest, j * os + os ≤ (memWrite buf (i * os) (write i)).length := by
      intro j hj
      rw [hstep]
      exact h j (by simp [hj])
    obtain ⟨ihlen, ihread⟩ := foldl_memWrite_spec os write hw rest
      (memWrite buf (i * os) (write i)) hrest
    refine ⟨by rw [List.foldl_cons, ihlen, hstep], ?_⟩
    intro j hj
    rw [List.foldl_cons, ihread j (by rw [hstep]; exact hj)]
    by_cases hjr : j ∈ rest
    · rw [if_pos hjr, if_pos (by simp [hjr])]
    · rw [if_neg hjr]
      by_cases hji : j = i
      · subst hji
        rw [if_pos (by simp)]
        have := memRead_memWrite_self buf (write j) (j * os) hwl
        rw [hw j] at this
        exact this
      · have hnot : ¬ j ∈ i :: rest := by
          intro hmem
          rcases List.mem_cons.mp hmem with h1 | h2
          · exact hji h1
          · exact hjr h2
        rw [if_neg hnot]
        apply memRead_memWrite_disjoint buf (write i) (i * os) (j * os) os hwl ?_ hj
        rw [hw i]
        rcases Nat.lt_or_ge j i with hlt | hge
        · left
          have := Nat.mul_le_mul_right os (by omega : j + 1 ≤ i)
          rw [Nat.succ_mul] at this
          omega
        · right
          have := Nat.mul_le_mul_right os (by omega : i + 1 ≤ j)
          rw [Nat.succ_mul] at this
          omega

lemma grow_if_full_spec (v : Vector) (alloc : Option (List Byte)) (hwf : WF v)
    (halloc : AllocOk alloc (grow_capacity v.capacity v.capacity * v.object_size))
    (hsucc : (grow_if_full v alloc).1 = true) :
    (grow_if_full v alloc).2.count = v.count ∧
    (grow_if_full v alloc).2.object_size = v.object_size ∧
    (grow_if_full v alloc).2.interface = v.interface ∧
    WF (grow_if_full v alloc).2 ∧
    v.count < (grow_if_full v alloc).2.capacity ∧
    ∀ k, k < v.count * v.object_size →
      byteAt ((grow_if_full v alloc).2.content.getD []) k
        = byteAt (v.content.getD []) k := by
  unfold grow_if_full at *
  by_cases hfull : vector_full v = true
  · rw [if_pos hfull] at hsucc ⊢
    obtain ⟨hcap, hcnt, hos, hitf, hwf', hbytes⟩ := grow_spec v v.capacity alloc hwf halloc hsucc
    have hfc : v.count = v.capacity := by
      unfold vector_full at hfull
      simpa using hfull
    refine ⟨hcnt, hos, hitf, hwf', ?_, ?_⟩
    · rw [hcap, hfc]
      unfold grow_capacity
      split <;> omega
    · intro k hk
      exact hbytes k (by
        calc k < v.count * v.object_size := hk
        _ ≤ v.capacity * v.object_size := Nat.mul_le_mul_right _ hwf.1)
  · rw [if_neg hfull]
    have hne : v.count ≠ v.capacity := by
      unfold vector_full at hfull
      simpa using hfull
    exact ⟨rfl, rfl, rfl, hwf, Nat.lt_of_le_of_ne hwf.1 hne, fun k _ => rfl⟩

lemma push_back_spec (v : Vector) (object : List Byte) (alloc : Option (List Byte))
    (hwf : WF v) (hobj : object.length = v.object_size)
    (halloc : AllocOk alloc (grow_capacity v.capacity v.capacity * v.object_size))
    (hsucc : (vector_push_back v object alloc).1 = true) :
    (vector_push_back v object alloc).2.count = v.count + 1 ∧
    (vector_push_back v object alloc).2.object_size = v.object_size ∧
    (vector_push_back v object alloc).2.interface = v.interface ∧
    WF (vector_push_back v object alloc).2 ∧
    vector_get_unchecked (vector_push_back v object alloc).2 v.count = object ∧
    ∀ i, i < v.count →
      vector_get_unchecked (vector_push_back v object alloc).2 i = vector_get_unchecked v i := by
  rcases hg : grow_if_full v alloc with ⟨b, v1⟩
  rcases b
  · have hres : vector_push_back v object alloc = (false, v1) := by
      unfold vector_push_back
      rw [hg]
    rw [hres] at hsucc
    simp at hsucc
  · have hspec := grow_if_full_spec v alloc hwf halloc (by rw [hg])
    rw [hg] at hspec
    obtain ⟨hcnt, hos, hitf, hwf1, hlt, hbytes⟩ := hspec
    replace hcnt : v1.count = v.count := hcnt
    replace hos : v1.object_size = v.object_size := hos
    replace hitf : v1.interface = v.interface := hitf
    replace hlt : v.count < v1.capacity := hlt
    replace hbytes : ∀ k, k < v.count * v.object_size →
        byteAt (v1.content.getD []) k = byteAt (v.content.getD []) k := hbytes
    have hwfv1 : WF v1 := hwf1
    obtain ⟨hcnt1, hnull1, hlen1⟩ := hwfv1
    replace hcnt1 : v1.count ≤ v1.capacity := hcnt1
    replace hnull1 : v1.content = none ↔ v1.capacity = 0 := hnull1
    replace hlen1 : (v1.content.getD []).length = v1.capacity * v1.object_size := hlen1
    have hres : vector_push_back v object alloc =
        (true, { v1 with
          content := some (memWrite (v1.content.getD []) (v1.count * v1.object_size)
            (object.take v1.object_size)),
          count := v1.count + 1 }) := by
      unfold vector_push_back
      rw [hg]
    rw [hres]
    have htake : (object.take v1.object_size).length = v1.object_size := by
      simp [List.length_take, hobj, hos]
    have hltc : v1.count < v1.capacity := by omega
    have hmul : (v1.count + 1) * v1.object_size ≤ v1.capacity * v1.object_size :=
      Nat.mul_le_mul_right _ (by omega)
    rw [Nat.succ_mul] at hmul
    have hbound : v1.count * v1.object_size + (object.take v1.object_size).length
        ≤ (v1.content.getD []).length := by
      rw [htake, hlen1]
      omega
    have hwlen : (memWrite (v1.content.getD []) (v1.count * v1.object_size)
        (object.take v1.object_size)).length = (v1.content.getD []).length :=
      length_memWrite _ _ _ hbound
    refine ⟨by simp [hcnt], by simp [hos], by simp [hitf], ⟨?_, ?_, ?_⟩, ?_, ?_⟩
    · show v1.count + 1 ≤ v1.capacity
      omega
    · show some _ = none ↔ v1.capacity = 0
      simp
      omega
    · show (memWrite (v1.content.getD []) (v1.count * v1.object_size)
        (object.take v1.object_size)).length = v1.capacity * v1.object_size
      rw [hwlen, hlen1]
    · show memRead (memWrite (v1.content.getD []) (v1.count * v1.object_size)
          (object.take v1.object_size)) (v.count * v1.object_size) v1.object_size = object
      rw [← hcnt]
      have hself := memRead_memWrite_self (v1.content.getD []) (object.take v1.object_size)
        (v1.count * v1.object_size) hbound
      rw [htake] at hself
      rw [hself, hos, ← hobj]
      exact List.take_length object
    · intro i hi
      show memRead (memWrite (v1.content.getD []) (v1.count * v1.object_size)
          (object.take v1.object_size)) (i * v1.object_size) v1.object_size
        = memRead (v.content.getD []) (i * v.object_size) v.object_size
      have hi1 : i * v1.object_size + v1.object_size ≤ v1.count * v1.object_size := by
        have := Nat.mul_le_mul_right v1.object_size (by omega : i + 1 ≤ v1.count)
        rw [Nat.succ_mul] at this
        exact this
      have hcc : v1.count * v1.object_size ≤ v1.capacity * v1.object_size :=
        Nat.mul_le_mul_right _ hcnt1
      rw [memRead_memWrite_disjoint _ _ _ _ _ hbound (Or.inl hi1) (by omega)]
      rw [hos]
      have hi1v : i * v.object_size + v.object_size ≤ v.count * v.object_size := by
        have := Nat.mul_le_mul_right v.object_size (by omega : i + 1 ≤ v.count)
        rw [Nat.succ_mul] at this
        exact this
      have hccv : v.count * v.object_size ≤ v.capacity * v.object_size :=
        Nat.mul_le_mul_right _ hwf.1
      have hlen1v : (v1.content.getD []).length = v1.capacity * v.object_size := by
        rw [hlen1, hos]
      have hcapv : v.count * v.object_size ≤ v1.capacity * v.object_size :=
        Nat.mul_le_mul_right _ (le_of_lt hlt)
      apply memRead_eq_of_byteAt
      · omega
      · rw [hwf.2.2]
        omega
      · intro j hj
        apply hbytes
        omega

lemma memRead_memmove_disjoint (buf : List Byte) (dst src len roff rlen : Nat)
    (hs : src + len ≤ buf.length) (hd : dst + len ≤ buf.length)
    (hdisj : roff + rlen ≤ dst ∨ dst + len ≤ roff) (hr : roff + rlen ≤ buf.length) :
    memRead (memmove buf dst src len) roff rlen = memRead buf roff rlen := by
  have hml : (memmove buf dst src len).length = buf.length := length_memmove buf dst src len hd
  apply memRead_eq_of_byteAt
  · omega
  · exact hr
  · intro j hj
    rw [byteAt_memmove buf dst src len _ hs hd, if_neg (by omega)]

lemma memRead_memmove_shift (buf : List Byte) (dst src len d rlen : Nat)
    (hs : src + len ≤ buf.length) (hd : dst + len ≤ buf.length)
    (hin : d + rlen ≤ len) :
    memRead (memmove buf dst src len) (dst + d) rlen = memRead buf (src + d) rlen := by
  have hml : (memmove buf dst src len).length = buf.length := length_memmove buf dst src len hd
  apply memRead_eq_of_byteAt
  · omega
  · omega
  · intro j hj
    rw [byteAt_memmove buf dst src len _ hs hd, if_pos (by omega)]
    congr 1
    omega

lemma grow_capacity_result (v : Vector) (n : Nat) (alloc : Option (List Byte))
    (hsucc : (vector_grow v n alloc).1 = true) :
    (vector_grow v n alloc).2.capacity = grow_capacity v.capacity n := by
  unfold vector_grow at *
  by_cases hun : vector_unallocated v = true
  · rw [if_pos hun] at hsucc ⊢
    rcases alloc with _ | fresh
    · simp [vector_init] at hsucc
    · rfl
  · rw [if_neg hun] at hsucc ⊢
    rcases alloc with _ | fresh
    · simp [vector_resize] at hsucc
    · rfl

lemma grow_capacity_double (c : Nat) :
    grow_capacity c c = if c = 0 then 16 else 2 * c := by
  unfold grow_capacity
  rcases Nat.eq_zero_or_pos c with h | h
  · simp [h]
  · rw [if_neg (by omega), if_neg (by omega)]
    omega

lemma push_back_fail (v : Vector) (object : List Byte) (alloc : Option (List Byte))
    (hfail : (vector_push_back v object alloc).1 = false) :
    (vector_push_back v object alloc).2 = v := by
  rcases hg : grow_if_full v alloc with ⟨b, v1⟩
  rcases b
  · have hres : vector_push_back v object alloc = (false, v1) := by
      unfold vector_push_back
      rw [hg]
    rw [hres]
    have h := grow_if_full_fail v alloc (by rw [hg])
    rw [hg] at h
    exact h
  · have hres : vector_push_back v object alloc =
        (true, { v1 with
          content := some (memWrite (v1.content.getD []) (v1.count * v1.object_size)
            (object.take v1.object_size)),
          count := v1.count + 1 }) := by
      unfold vector_push_back
      rw [hg]
    rw [hres] at hfail
    simp at hfail

lemma push_front_fail (v : Vector) (object : List Byte) (alloc : Option (List Byte))
    (hfail : (vector_push_front v object alloc).1 = false) :
    (vector_push_front v object alloc).2 = v := by
  rcases hg : grow_if_full v alloc with ⟨b, v1⟩
  rcases b
  · have hres : vector_push_front v object alloc = (false, v1) := by
      unfold vector_push_front
      rw [hg]
    rw [hres]
    have h := grow_if_full_fail v alloc (by rw [hg])
    rw [hg] at h
    exact h
  · have hres : vector_push_front v object alloc =
        (true, { v1 with
          content := some (memWrite
            (memmove (v1.content.getD []) v1.object_size 0 (v1.count * v1.object_size))
            0 (object.take v1.object_size)),
          count := v1.count + 1 }) := by
      unfold vector_push_front
      rw [hg]
    rw [hres] at hfail
    simp at hfail

lemma insert_fail (v : Vector) (index : Nat) (object : List Byte)
    (alloc : Option (List Byte))
    (hfail : (vector_insert v index object alloc).1 = false) :
    (vector_insert v index object alloc).2 = v := by
  by_cases hguard : (vector_empty v = true ∨ v.count ≤ index)
  · have hres : vector_insert v index object alloc = (false, v) := by
      unfold vector_insert
      rw [if_pos hguard]
    rw [hres]
  · rcases hg : grow_if_full v alloc with ⟨b, v1⟩
    rcases b
    · have hres : vector_insert v index object alloc = (false, v1) := by
        unfold vector_insert
        rw [if_neg hguard, hg]
      rw [hres]
      have h := grow_if_full_fail v alloc (by rw [hg])
      rw [hg] at h
      exact h
    · have hres : vector_insert v index object alloc =
          (true, { v1 with
            content := some (memWrite
              (memmove (v1.content.getD []) ((index + 1) * v1.object_size)
                (index * v1.object_size) ((v1.count - index) * v1.object_size))
              (index * v1.object_size) (object.take v1.object_size)),
            count := v1.count + 1 }) := by
        unfold vector_insert
        rw [if_neg hguard, hg]
      rw [hres] at hfail
      simp at hfail

lemma grow_bytes_elem (v v1 : Vector) (hos : v1.object_size = v.object_size)
    (hbytes : ∀ k, k < v.count * v.object_size →
      byteAt (v1.content.getD []) k = byteAt (v.content.getD []) k)
    (hlenv : (v.content.getD []).length = v.capacity * v.object_size)
    (hlen1 : (v1.content.getD []).length = v1.capacity * v1.object_size)
    (hcntcap : v.count ≤ v.capacity) (hltcap : v.count ≤ v1.capacity)
    (j : Nat) (hj : j < v.count) :
    memRead (v1.content.getD []) (j * v1.object_size) v1.object_size
      = memRead (v.content.getD []) (j * v.object_size) v.object_size := by
  rw [hos]
  have hj1 : j * v.object_size + v.object_size ≤ v.count * v.object_size := by
    have := Nat.mul_le_mul_right v.object_size (by omega : j + 1 ≤ v.count)
    rw [Nat.succ_mul] at this
    exact this
  have h2 : v.count * v.object_size ≤ v.capacity * v.object_size :=
    Nat.mul_le_mul_right _ hcntcap
  have h3 : v.count * v.object_size ≤ v1.capacity * v.object_size :=
    Nat.mul_le_mul_right _ hltcap
  have hlen1v : (v1.content.getD []).length = v1.capacity * v.object_size := by
    rw [hlen1, hos]
  apply memRead_eq_of_byteAt
  · omega
  · omega
  · intro m hm
    apply hbytes
    omega

lemma insert_spec (v : Vector) (index : Nat) (object : List Byte)
    (alloc : Option (List Byte)) (hwf : WF v) (hidx : index < v.count)
    (hobj : object.length = v.object_size)
    (halloc : AllocOk alloc (grow_capacity v.capacity v.capacity * v.object_size))
    (hsucc : (vector_insert v index object alloc).1 = true) :
    (vector_insert v index object alloc).2.count = v.count + 1 ∧
    (vector_insert v index object alloc).2.object_size = v.object_size ∧
    (vector_insert v index object alloc).2.interface = v.interface ∧
    WF (vector_insert v index object alloc).2 ∧
    (∀ j, j < index →
      vector_get_unchecked (vector_insert v index object alloc).2 j
        = vector_get_unchecked v j) ∧
    vector_get_unchecked (vector_insert v index object alloc).2 index = object ∧
    (∀ j, index ≤ j → j < v.count →
      vector_get_unchecked (vector_insert v index object alloc).2 (j + 1)
        = vector_get_unchecked v j) := by
  have hguard : ¬(vector_empty v = true ∨ v.count ≤ index) := by
    simp [vector_empty]
    omega
  rcases hg : grow_if_full v alloc with ⟨b, v1⟩
  rcases b
  · have hres : vector_insert v index object alloc = (false, v1) := by
      unfold vector_insert
      rw [if_neg hguard, hg]
    rw [hres] at hsucc
    simp at hsucc
  · have hspec := grow_if_full_spec v alloc hwf halloc (by rw [hg])
    rw [hg] at hspec
    obtain ⟨hcnt, hos, hitf, hwf1, hlt, hbytes⟩ := hspec
    replace hcnt : v1.count = v.count := hcnt
    replace hos : v1.object_size = v.object_size := hos
    replace hitf : v1.interface = v.interface := hitf
    replace hlt : v.count < v1.capacity := hlt
    replace hbytes : ∀ k, k < v.count * v.object_size →
        byteAt (v1.content.getD []) k = byteAt (v.content.getD []) k := hbytes
    have hwfv1 : WF v1 := hwf1
    obtain ⟨hcnt1, hnull1, hlen1⟩ := hwfv1
    replace hcnt1 : v1.count ≤ v1.capacity := hcnt1
    replace hnull1 : v1.content = none ↔ v1.capacity = 0 := hnull1
    replace hlen1 : (v1.content.getD []).length = v1.capacity * v1.object_size := hlen1
    have hobj1 : object.length = v1.object_size := by rw [hobj, hos]
    have hres : vector_insert v index object alloc =
        (true, { v1 with
          content := some (memWrite
            (memmove (v1.content.getD []) ((index + 1) * v1.object_size)
              (index * v1.object_size) ((v1.count - index) * v1.object_size))
            (index * v1.object_size) (object.take v1.object_size)),
          count := v1.count + 1 }) := by
      unfold vector_insert
      rw [if_neg hguard, hg]
    rw [hres]
    have hsuccA : (index + 1) * v1.object_size = index * v1.object_size + v1.object_size :=
      Nat.succ_mul index v1.object_size
    have hdstlen : (index + 1) * v1.object_size + (v1.count - index) * v1.object_size
        = (v1.count + 1) * v1.object_size := by
      rw [← Nat.add_mul]
      congr 1
      omega
    have hsrclen : index * v1.object_size + (v1.count - index) * v1.object_size
        = v1.count * v1.object_size := by
      rw [← Nat.add_mul]
      congr 1
      omega
    have hcap1 : (v1.count + 1) * v1.object_size ≤ v1.capacity * v1.object_size :=
      Nat.mul_le_mul_right _ (by omega)
    have hcap1' : (v1.count + 1) * v1.object_size = v1.count * v1.object_size + v1.object_size :=
      Nat.succ_mul _ _
    have hcnt_cap : v1.count * v1.object_size ≤ v1.capacity * v1.object_size :=
      Nat.mul_le_mul_right _ (by omega)
    have hs : index * v1.object_size + (v1.count - index) * v1.object_size
        ≤ (v1.content.getD []).length := by
      rw [hsrclen, hlen1]
      omega
    have hd : (index + 1) * v1.object_size + (v1.count - index) * v1.object_size
        ≤ (v1.content.getD []).length := by
      rw [hdstlen, hlen1]
      omega
    have hmovelen : (memmove (v1.content.getD []) ((index + 1) * v1.object_size)
        (index * v1.object_size) ((v1.count - index) * v1.object_size)).length
        = (v1.content.getD []).length :=
      length_memmove _ _ _ _ hd
    have htake : (object.take v1.object_size).length = v1.object_size := by
      simp [List.length_take, hobj1]
    have hidx1 : (index + 1) * v1.object_size ≤ v1.capacity * v1.object_size :=
      Nat.mul_le_mul_right _ (by omega)
    have hwbound : index * v1.object_size + (object.take v1.object_size).length
        ≤ (memmove (v1.content.getD []) ((index + 1) * v1.object_size)
          (index * v1.object_size) ((v1.count - index) * v1.object_size)).length := by
      rw [htake, hmovelen, hlen1]
      omega
    have hwlen : (memWrite
        (memmove (v1.content.getD []) ((index + 1) * v1.object_size)
          (index * v1.object_size) ((v1.count - index) * v1.object_size))
        (index * v1.object_size) (object.take v1.object_size)).length
        = (memmove (v1.content.getD []) ((index + 1) * v1.object_size)
          (index * v1.object_size) ((v1.count - index) * v1.object_size)).length :=
      length_memWrite _ _ _ hwbound
    refine ⟨by simp [hcnt], by simp [hos], by simp [hitf], ⟨?_, ?_, ?_⟩, ?_, ?_, ?_⟩
    · show v1.count + 1 ≤ v1.capacity
      omega
    · show some _ = none ↔ v1.capacity = 0
      simp
      omega
    · show (memWrite
        (memmove (v1.content.getD []) ((index + 1) * v1.object_size)
          (index * v1.object_size) ((v1.count - index) * v1.object_size))
        (index * v1.object_size) (object.take v1.object_size)).length
        = v1.capacity * v1.object_size
      rw [hwlen, hmovelen, hlen1]
    · intro j hj
      show memRead (memWrite
          (memmove (v1.content.getD []) ((index + 1) * v1.object_size)
            (index * v1.object_size) ((v1.count - index) * v1.object_size))
          (index * v1.object_size) (object.take v1.object_size))
          (j * v1.object_size) v1.object_size
        = memRead (v.content.getD []) (j * v.object_size) v.object_size
      have hj1 : j * v1.object_size + v1.object_size ≤ index * v1.object_size := by
        have := Nat.mul_le_mul_right v1.object_size (by omega : j + 1 ≤ index)
        rw [Nat.succ_mul] at this
        exact this
      rw [memRead_memWrite_disjoint _ _ _ _ _ hwbound (Or.inl hj1)
        (by rw [hmovelen, hlen1]; omega)]
      rw [memRead_memmove_disjoint _ _ _ _ _ _ hs hd (Or.inl (by omega))
        (by rw [hlen1]; omega)]
      exact grow_bytes_elem v v1 hos hbytes hwf.2.2 hlen1 hwf.1 (by omega) j (by omega)
    · show memRead (memWrite
          (memmove (v1.content.getD []) ((index + 1) * v1.object_size)
            (index * v1.object_size) ((v1.count - index) * v1.object_size))
          (index * v1.object_size) (object.take v1.object_size))
          (index * v1.object_size) v1.object_size = object
      have hself := memRead_memWrite_self
        (memmove (v1.content.getD []) ((index + 1) * v1.object_size)
          (index * v1.object_size) ((v1.count - index) * v1.object_size))
        (object.take v1.object_size) (index * v1.object_size) hwbound
      rw [htake] at hself
      rw [hself, ← hobj1]
      exact List.take_length object
    · intro j hjl hjr
      show memRead (memWrite
          (memmove (v1.content.getD []) ((index + 1) * v1.object_size)
            (index * v1.object_size) ((v1.count - index) * v1.object_size))
          (index * v1.object_size) (object.take v1.object_size))
          ((j + 1) * v1.object_size) v1.object_size
        = memRead (v.content.getD []) (j * v.object_size) v.object_size
      have hjsucc : (j + 1) * v1.object_size = j * v1.object_size + v1.object_size :=
        Nat.succ_mul _ _
      have hjup : (j + 1) * v1.object_size + v1.object_size
          ≤ (v1.count + 1) * v1.object_size := by
        have := Nat.mul_le_mul_right v1.object_size (by omega : (j + 1) + 1 ≤ v1.count + 1)
        rw [Nat.succ_mul (j + 1)] at this
        exact this
      have hdisjW : index * v1.object_size + (object.take v1.object_size).length
          ≤ (j + 1) * v1.object_size := by
        rw [htake]
        have hmono := Nat.mul_le_mul_right v1.object_size (by omega : index + 1 ≤ j + 1)
        omega
      rw [memRead_memWrite_disjoint _ _ _ _ _ hwbound (Or.inr hdisjW)
        (by rw [hmovelen, hlen1]; omega)]
      have hoff : (j + 1) * v1.object_size
          = (index + 1) * v1.object_size + (j - index) * v1.object_size := by
        rw [← Nat.add_mul]
        congr 1
        omega
      rw [hoff]
      rw [memRead_memmove_shift _ _ _ _ _ _ hs hd (by
        have := Nat.mul_le_mul_right v1.object_size
          (by omega : (j - index) + 1 ≤ v1.count - index)
        rw [Nat.succ_mul] at this
        exact this)]
      have hsrc : index * v1.object_size + (j - index) * v1.object_size
          = j * v1.object_size := by
        rw [← Nat.add_mul]
        congr 1
        omega
      rw [hsrc]
      exact grow_bytes_elem v v1 hos hbytes hwf.2.2 hlen1 hwf.1 (by omega) j (by omega)

lemma discard_spec (v : Vector) (index : Nat)
    (hrel : interface_release v.interface = none)
    (hwf : WF v) (hidx : index < v.count) :
    (vector_discard v index).1 = true ∧
    (vector_discard v index).2.count = v.count - 1 ∧
    (vector_discard v index).2.object_size = v.object_size ∧
    (vector_discard v index).2.interface = v.interface ∧
    (vector_discard v index).2.capacity = v.capacity ∧
    WF (vector_discard v index).2 ∧
    (∀ j, j < index →
      vector_get_unchecked (vector_discard v index).2 j = vector_get_unchecked v j) ∧
    (∀ j, index ≤ j → j + 1 < v.count →
      vector_get_unchecked (vector_discard v index).2 j = vector_get_unchecked v (j + 1)) := by
  obtain ⟨hcnt, hnull, hlen⟩ := hwf
  have hguard : ¬(vector_empty v = true ∨ v.count ≤ index) := by
    simp [vector_empty]
    omega
  have hres : vector_discard v index =
      (true, { v with
        content := some (memmove (v.content.getD []) (index * v.object_size)
          ((index + 1) * v.object_size) ((v.count - index - 1) * v.object_size)),
        count := v.count - 1 }) := by
    unfold vector_discard
    rw [if_neg hguard]
    unfold apply_release
    rw [hrel]
  rw [hres]
  have hsuccA : (index + 1) * v.object_size = index * v.object_size + v.object_size :=
    Nat.succ_mul index v.object_size
  have hslen : (index + 1) * v.object_size + (v.count - index - 1) * v.object_size
      = v.count * v.object_size := by
    rw [← Nat.add_mul]
    congr 1
    omega
  have hdlen : index * v.object_size + (v.count - index - 1) * v.object_size
      = (v.count - 1) * v.object_size := by
    rw [← Nat.add_mul]
    congr 1
    omega
  have hcnt_cap : v.count * v.object_size ≤ v.capacity * v.object_size :=
    Nat.mul_le_mul_right _ hcnt
  have hcm1 : (v.count - 1) * v.object_size ≤ v.count * v.object_size :=
    Nat.mul_le_mul_right _ (by omega)
  have hs : (index + 1) * v.object_size + (v.count - index - 1) * v.object_size
      ≤ (v.content.getD []).length := by
    rw [hslen, hlen]
    omega
  have hd : index * v.object_size + (v.count - index - 1) * v.object_size
      ≤ (v.content.getD []).length := by
    rw [hdlen, hlen]
    omega
  have hmovelen : (memmove (v.content.getD []) (index * v.object_size)
      ((index + 1) * v.object_size) ((v.count - index - 1) * v.object_size)).length
      = (v.content.getD []).length :=
    length_memmove _ _ _ _ hd
  refine ⟨rfl, rfl, rfl, rfl, rfl, ⟨?_, ?_, ?_⟩, ?_, ?_⟩
  · show v.count - 1 ≤ v.capacity
    omega
  · show some _ = none ↔ v.capacity = 0
    simp
    omega
  · show (memmove (v.content.getD []) (index * v.object_size)
      ((index + 1) * v.object_size) ((v.count - index - 1) * v.object_size)).length
      = v.capacity * v.object_size
    rw [hmovelen, hlen]
  · intro j hj
    show memRead (memmove (v.content.getD []) (index * v.object_size)
        ((index + 1) * v.object_size) ((v.count - index - 1) * v.object_size))
        (j * v.object_size) v.object_size
      = memRead (v.content.getD []) (j * v.object_size) v.object_size
    have hj1 : j * v.object_size + v.object_size ≤ index * v.object_size := by
      have := Nat.mul_le_mul_right v.object_size (by omega : j + 1 ≤ index)
      rw [Nat.succ_mul] at this
      exact this
    rw [memRead_memmove_disjoint _ _ _ _ _ _ hs hd (Or.inl hj1)
      (by rw [hlen]; omega)]
  · intro j hjl hjr
    show memRead (memmove (v.content.getD []) (index * v.object_size)
        ((index + 1) * v.object_size) ((v.count - index - 1) * v.object_size))
        (j * v.object_size) v.object_size
      = memRead (v.content.getD []) ((j + 1) * v.object_size) v.object_size
    have hoff : j * v.object_size
        = index * v.object_size + (j - index) * v.object_size := by
      rw [← Nat.add_mul]
      congr 1
      omega
    rw [hoff]
    rw [memRead_memmove_shift _ _ _ _ _ _ hs hd (by
      have := Nat.mul_le_mul_right v.object_size
        (by omega : (j - index) + 1 ≤ v.count - index - 1)
      rw [Nat.succ_mul] at this
      exact this)]
    have hsrc : (index + 1) * v.object_size + (j - index) * v.object_size
        = (j + 1) * v.object_size := by
      rw [← Nat.add_mul]
      congr 1
      omega
    rw [hsrc]

lemma pop_back_eq (v : Vector) (object : List Byte) (hne : v.count ≠ 0) :
    vector_pop_back v object =
      (true, { v with count := v.count - 1 },
        memWrite object 0
          (memRead (v.content.getD []) ((v.count - 1) * v.object_size) v.object_size)) := by
  unfold vector_pop_back vector_empty
  simp [hne]

lemma frame_mk (v : Vector) (buf' : List Byte) (c' : Nat) (hwf : WF v)
    (hlen' : buf'.length = (v.content.getD []).length)
    (hns : ¬ v.content = none) (hc' : c' ≤ v.count) :
    (({ v with content := some buf', count := c' } : Vector).content = none
      ↔ v.content = none) ∧
    WF { v with content := some buf', count := c' } := by
  obtain ⟨h1, h2, h3⟩ := hwf
  refine ⟨by simp [hns], ⟨?_, ?_, ?_⟩⟩
  · show c' ≤ v.capacity
    omega
  · show some buf' = none ↔ v.capacity = 0
    simp
    exact fun h => hns (h2.mpr h)
  · show buf'.length = v.capacity * v.object_size
    rw [hlen', h3]

lemma nonempty_content (v : Vector) (hwf : WF v) (hne : v.count ≠ 0) :
    ¬ v.content = none := by
  intro h
  have := hwf.2.1.mp h
  have := hwf.1
  omega

lemma elem_bound (v : Vector) (hwf : WF v) (i : Nat) (hi : i < v.count) :
    i * v.object_size + v.object_size ≤ (v.content.getD []).length := by
  have h1 := Nat.mul_le_mul_right v.object_size (by omega : i + 1 ≤ v.count)
  rw [Nat.succ_mul] at h1
  have h2 : v.count * v.object_size ≤ v.capacity * v.object_size :=
    Nat.mul_le_mul_right _ hwf.1
  rw [hwf.2.2]
  omega

lemma count_bound (v : Vector) (hwf : WF v) :
    v.count * v.object_size ≤ (v.content.getD []).length := by
  rw [hwf.2.2]
  exact Nat.mul_le_mul_right _ hwf.1

lemma discard_back_eq (v : Vector) (hne : v.count ≠ 0) :
    vector_discard_back v =
      (true, { v with
        content := some (apply_release v.interface (v.content.getD [])
          ((v.count - 1) * v.object_size) v.object_size),
        count := v.count - 1 }) := by
  unfold vector_discard_back
  rw [if_neg (by simp [vector_empty, hne])]

lemma discard_front_eq (v : Vector) (hne : v.count ≠ 0) :
    vector_discard_front v =
      (true, { v with
        content := some (memmove
          (apply_release v.interface (v.content.getD []) 0 v.object_size)
          0 v.object_size (v.count * v.object_size)),
        count := v.count - 1 }) := by
  unfold vector_discard_front
  rw [if_neg (by simp [vector_empty, hne])]

lemma discard_eq (v : Vector) (index : Nat) (hidx : index < v.count) :
    vector_discard v index =
      (true, { v with
        content := some (memmove
          (apply_release v.interface (v.content.getD [])
            (index * v.object_size) v.object_size)
          (index * v.object_size) ((index + 1) * v.object_size)
          ((v.count - index - 1) * v.object_size)),
        count := v.count - 1 }) := by
  unfold vector_discard
  rw [if_neg (by simp [vector_empty]; omega)]

lemma pop_front_eq (v : Vector) (object : List Byte) (hne : v.count ≠ 0) :
    vector_pop_front v object =
      (true, { v with
        content := some (memmove (v.content.getD []) 0 v.object_size
          (v.count * v.object_size)),
        count := v.count - 1 },
        memWrite object 0 (memRead (v.content.getD []) 0 v.object_size)) := by
  unfold vector_pop_front
  rw [if_neg (by simp [vector_empty, hne])]

lemma pop_eq (v : Vector) (object : List Byte) (index : Nat) (hidx : index < v.count) :
    vector_pop v object index =
      (true, { v with
        content := some (memmove (v.content.getD []) (index * v.object_size)
          ((index + 1) * v.object_size) ((v.count - index - 1) * v.object_size)),
        count := v.count - 1 },
        memWrite object 0
          (memRead (v.content.getD []) (index * v.object_size) v.object_size)) := by
  unfold vector_pop
  rw [if_neg (by simp [vector_empty]; omega)]

lemma set_eq (v : Vector) (index : Nat) (object : List Byte) (hidx : index < v.count) :
    vector_set v index object =
      (true, { v with content := some (memWrite (v.content.getD [])
        (index * v.object_size) (object.take v.object_size)) }) := by
  unfold vector_set
  rw [if_neg (by simp [vector_empty]; omega)]

lemma discard_back_frame (v : Vector) (hwf : WF v) :
    (vector_discard_back v).2.capacity = v.capacity ∧
    (vector_discard_back v).2.object_size = v.object_size ∧
    (vector_discard_back v).2.interface = v.interface ∧
    ((vector_discard_back v).2.content = none ↔ v.content = none) ∧
    ((vector_discard_back v).2.content.getD []).length = (v.content.getD []).length ∧
    WF (vector_discard_back v).2 := by
  by_cases hne : v.count = 0
  · have hres : vector_discard_back v = (false, v) := by
      unfold vector_discard_back
      rw [if_pos (by simp [vector_empty, hne])]
    rw [hres]
    exact ⟨rfl, rfl, rfl, Iff.rfl, rfl, hwf⟩
  · rw [discard_back_eq v hne]
    have hbnd := elem_bound v hwf (v.count - 1) (by omega)
    have hlen' := length_apply_release v.interface (v.content.getD [])
      ((v.count - 1) * v.object_size) v.object_size hbnd
    have hfm := frame_mk v _ (v.count - 1) hwf hlen' (nonempty_content v hwf hne) (by omega)
    exact ⟨rfl, rfl, rfl, hfm.1, hlen', hfm.2⟩

lemma discard_front_frame (v : Vector) (hwf : WF v) :
    (vector_discard_front v).2.capacity = v.capacity ∧
    (vector_discard_front v).2.object_size = v.object_size ∧
    (vector_discard_front v).2.interface = v.interface ∧
    ((vector_discard_front v).2.content = none ↔ v.content = none) ∧
    ((vector_discard_front v).2.content.getD []).length = (v.content.getD []).length ∧
    WF (vector_discard_front v).2 := by
  by_cases hne : v.count = 0
  · have hres : vector_discard_front v = (false, v) := by
      unfold vector_discard_front
      rw [if_pos (by simp [vector_empty, hne])]
    rw [hres]
    exact ⟨rfl, rfl, rfl, Iff.rfl, rfl, hwf⟩
  · rw [discard_front_eq v hne]
    have hosbnd : 0 + v.object_size ≤ (v.content.getD []).length := by
      have := elem_bound v hwf 0 (by omega)
      omega
    have hrl := length_apply_release v.interface (v.content.getD []) 0 v.object_size hosbnd
    have hmv : (memmove (apply_release v.interface (v.content.getD []) 0 v.object_size)
        0 v.object_size (v.count * v.object_size)).length
        = (v.content.getD []).length := by
      rw [length_memmove _ _ _ _ (by rw [hrl]; have := count_bound v hwf; omega), hrl]
    have hfm := frame_mk v _ (v.count - 1) hwf hmv (nonempty_content v hwf hne) (by omega)
    exact ⟨rfl, rfl, rfl, hfm.1, hmv, hfm.2⟩

lemma discard_frame (v : Vector) (index : Nat) (hwf : WF v) :
    (vector_discard v index).2.capacity = v.capacity ∧
    (vector_discard v index).2.object_size = v.object_size ∧
    (vector_discard v index).2.interface = v.interface ∧
    ((vector_discard v index).2.content = none ↔ v.content = none) ∧
    ((vector_discard v index).2.content.getD []).length = (v.content.getD []).length ∧
    WF (vector_discard v index).2 := by
  by_cases hidx : index < v.count
  · rw [discard_eq v index hidx]
    have hbnd := elem_bound v hwf index hidx
    have hrl := length_apply_release v.interface (v.content.getD [])
      (index * v.object_size) v.object_size hbnd
    have hdl : index * v.object_size + (v.count - index - 1) * v.object_size
        = (v.count - 1) * v.object_size := by
      rw [← Nat.add_mul]
      congr 1
      omega
    have hc1 : (v.count - 1) * v.object_size ≤ v.count * v.object_size :=
      Nat.mul_le_mul_right _ (by omega)
    have hmv : (memmove
        (apply_release v.interface (v.content.getD [])
          (index * v.object_size) v.object_size)
        (index * v.object_size) ((index + 1) * v.object_size)
        ((v.count - index - 1) * v.object_size)).length
        = (v.content.getD []).length := by
      rw [length_memmove _ _ _ _ (by
        rw [hrl]
        have := count_bound v hwf
        omega), hrl]
    have hfm := frame_mk v _ (v.count - 1) hwf hmv
      (nonempty_content v hwf (by omega)) (by omega)
    exact ⟨rfl, rfl, rfl, hfm.1, hmv, hfm.2⟩
  · have hres : vector_discard v index = (false, v) := by
      unfold vector_discard
      rw [if_pos (by
        right
        omega)]
    rw [hres]
    exact ⟨rfl, rfl, rfl, Iff.rfl, rfl, hwf⟩

lemma pop_back_frame (v : Vector) (object : List Byte) (hwf : WF v) :
    (vector_pop_back v object).2.1.capacity = v.capacity ∧
    (vector_pop_back v object).2.1.object_size = v.object_size ∧
    (vector_pop_back v object).2.1.interface = v.interface ∧
    ((vector_pop_back v object).2.1.content = none ↔ v.content = none) ∧
    ((vector_pop_back v object).2.1.content.getD []).length
      = (v.content.getD []).length ∧
    WF (vector_pop_back v object).2.1 := by
  by_cases hne : v.count = 0
  · have hres : vector_pop_back v object = (false, v, object) := by
      unfold vector_pop_back
      rw [if_pos (by simp [vector_empty, hne])]
    rw [hres]
    exact ⟨rfl, rfl, rfl, Iff.rfl, rfl, hwf⟩
  · rw [pop_back_eq v object hne]
    obtain ⟨h1, h2, h3⟩ := hwf
    exact ⟨rfl, rfl, rfl, Iff.rfl, rfl,
      ⟨show v.count - 1 ≤ v.capacity by omega, h2, h3⟩⟩

lemma pop_front_frame (v : Vector) (object : List Byte) (hwf : WF v) :
    (vector_pop_front v object).2.1.capacity = v.capacity ∧
    (vector_pop_front v object).2.1.object_size = v.object_size ∧
    (vector_pop_front v object).2.1.interface = v.interface ∧
    ((vector_pop_front v object).2.1.content = none ↔ v.content = none) ∧
    ((vector_pop_front v object).2.1.content.getD []).length
      = (v.content.getD []).length ∧
    WF (vector_pop_front v object).2.1 := by
  by_cases hne : v.count = 0
  · have hres : vector_pop_front v object = (false, v, object) := by
      unfold vector_pop_front
      rw [if_pos (by simp [vector_empty, hne])]
    rw [hres]
    exact ⟨rfl, rfl, rfl, Iff.rfl, rfl, hwf⟩
  · rw [pop_front_eq v object hne]
    have hmv : (memmove (v.content.getD []) 0 v.object_size
        (v.count * v.object_size)).length = (v.content.getD []).length := by
      rw [length_memmove _ _ _ _ (by have := count_bound v hwf; omega)]
    have hfm := frame_mk v _ (v.count - 1) hwf hmv (nonempty_content v hwf hne) (by omega)
    exact ⟨rfl, rfl, rfl, hfm.1, hmv, hfm.2⟩

lemma pop_frame (v : Vector) (object : List Byte) (index : Nat) (hwf : WF v) :
    (vector_pop v object index).2.1.capacity = v.capacity ∧
    (vector_pop v object index).2.1.object_size = v.object_size ∧
    (vector_pop v object index).2.1.interface = v.interface ∧
    ((vector_pop v object index).2.1.content = none ↔ v.content = none) ∧
    ((vector_pop v object index).2.1.content.getD []).length
      = (v.content.getD []).length ∧
    WF (vector_pop v object index).2.1 := by
  by_cases hidx : index < v.count
  · rw [pop_eq v object index hidx]
    have hdl : index * v.object_size + (v.count - index - 1) * v.object_size
        = (v.count - 1) * v.object_size := by
      rw [← Nat.add_mul]
      congr 1
      omega
    have hc1 : (v.count - 1) * v.object_size ≤ v.count * v.object_size :=
      Nat.mul_le_mul_right _ (by omega)
    have hmv : (memmove (v.content.getD []) (index * v.object_size)
        ((index + 1) * v.object_size) ((v.count - index - 1) * v.object_size)).length
        = (v.content.getD []).length := by
      rw [length_memmove _ _ _ _ (by have := count_bound v hwf; omega)]
    have hfm := frame_mk v _ (v.count - 1) hwf hmv
      (nonempty_content v hwf (by omega)) (by omega)
    exact ⟨rfl, rfl, rfl, hfm.1, hmv, hfm.2⟩
  · have hres : vector_pop v object index = (false, v, object) := by
      unfold vector_pop
      rw [if_pos (by
        right
        omega)]
    rw [hres]
    exact ⟨rfl, rfl, rfl, Iff.rfl, rfl, hwf⟩

lemma set_frame (v : Vector) (index : Nat) (object : List Byte) (hwf : WF v) :
    (vector_set v index object).2.capacity = v.capacity ∧
    (vector_set v index object).2.object_size = v.object_size ∧
    (vector_set v index object).2.interface = v.interface ∧
    (vector_set v index object).2.count = v.count ∧
    ((vector_set v index object).2.content = none ↔ v.content = none) ∧
    ((vector_set v index object).2.content.getD []).length
      = (v.content.getD []).length ∧
    WF (vector_set v index object).2 := by
  by_cases hidx : index < v.count
  · rw [set_eq v index object hidx]
    have hbnd := elem_bound v hwf index hidx
    have htk : (object.take v.object_size).length ≤ v.object_size := by
      simp [List.length_take]
    have hwl : (memWrite (v.content.getD []) (index * v.object_size)
        (object.take v.object_size)).length = (v.content.getD []).length :=
      length_memWrite _ _ _ (by omega)
    have hfm := frame_mk v _ v.count hwf hwl
      (nonempty_content v hwf (by omega)) (le_refl _)
    exact ⟨rfl, rfl, rfl, rfl, hfm.1, hwl, hfm.2⟩
  · have hres : vector_set v index object = (false, v) := by
      unfold vector_set
      rw [if_pos (by
        right
        omega)]
    rw [hres]
    exact ⟨rfl, rfl, rfl, rfl, Iff.rfl, rfl, hwf⟩

lemma walk_frame (v : Vector) (cb : List Byte → List Byte) (hwf : WF v) :
    (vector_walk v cb).capacity = v.capacity ∧
    (vector_walk v cb).object_size = v.object_size ∧
    (vector_walk v cb).interface = v.interface ∧
    (vector_walk v cb).count = v.count ∧
    ((vector_walk v cb).content = none ↔ v.content = none) ∧
    ((vector_walk v cb).content.getD []).length = (v.content.getD []).length ∧
    WF (vector_walk v cb) := by
  unfold vector_walk
  by_cases hemp : vector_empty v = true
  · rw [if_pos hemp]
    exact ⟨rfl, rfl, rfl, rfl, Iff.rfl, rfl, hwf⟩
  · rw [if_neg hemp]
    have hne : v.count ≠ 0 := by simpa [vector_empty] using hemp
    have hfl := walk_fold_length v.object_size cb (List.range v.count)
      (v.content.getD []) (by
        intro i hi
        have hi' : i < v.count := List.mem_range.mp hi
        have := elem_bound v hwf i hi'
        omega)
    have hfm := frame_mk v _ v.count hwf hfl (nonempty_content v hwf hne) (le_refl _)
    exact ⟨rfl, rfl, rfl, rfl, hfm.1, hfl, hfm.2⟩

lemma reset_frame (v : Vector) (hwf : WF v) :
    (vector_reset v).capacity = v.capacity ∧
    (vector_reset v).object_size = v.object_size ∧
    (vector_reset v).interface = v.interface ∧
    (vector_reset v).count = 0 ∧
    ((vector_reset v).content = none ↔ v.content = none) ∧
    ((vector_reset v).content.getD []).length = (v.content.getD []).length ∧
    WF (vector_reset v) := by
  by_cases hemp : vector_empty v = true
  · have hres : vector_reset v = v := by
      unfold vector_reset
      rw [if_pos hemp]
    rw [hres]
    have hc0 : v.count = 0 := by simpa [vector_empty] using hemp
    exact ⟨rfl, rfl, rfl, hc0, Iff.rfl, rfl, hwf⟩
  · have hne : v.count ≠ 0 := by simpa [vector_empty] using hemp
    rcases hrel : interface_release v.interface with _ | rel
    · have hres : vector_reset v = { v with count := 0 } := by
        unfold vector_reset
        rw [if_neg hemp, hrel]
      rw [hres]
      obtain ⟨h1, h2, h3⟩ := hwf
      exact ⟨rfl, rfl, rfl, rfl, Iff.rfl, rfl,
        ⟨show (0 : Nat) ≤ v.capacity by omega, h2, h3⟩⟩
    · have hres : vector_reset v = { vector_walk v rel with count := 0 } := by
        unfold vector_reset
        rw [if_neg hemp, hrel]
      rw [hres]
      have hw := walk_frame v rel hwf
      obtain ⟨w1, w2, w3, w4, w5, w6, w7⟩ := hw
      obtain ⟨g1, g2, g3⟩ := w7
      exact ⟨w1, w2, w3, rfl, w5, w6,
        ⟨show (0 : Nat) ≤ (vector_walk v rel).capacity by omega, g2, g3⟩⟩

lemma release_spec (v : Vector) (hwf : WF v) :
    (vector_release v).content = none ∧
    (vector_release v).capacity = 0 ∧
    (vector_release v).count = 0 ∧
    (vector_release v).object_size = v.object_size ∧
    (vector_release v).interface = v.interface ∧
    WF (vector_release v) := by
  unfold vector_release
  by_cases hun : vector_unallocated v = true
  · rw [if_pos hun]
    have hc : v.content = none := by
      unfold vector_unallocated at hun
      exact Option.isNone_iff_eq_none.mp hun
    have hcap : v.capacity = 0 := hwf.2.1.mp hc
    have hcnt : v.count = 0 := by
      have := hwf.1
      omega
    exact ⟨hc, hcap, hcnt, rfl, rfl, hwf⟩
  · rw [if_neg hun]
    have hr := reset_frame v hwf
    refine ⟨rfl, rfl, ?_, ?_, ?_, ⟨?_, ?_, ?_⟩⟩
    · show (vector_reset v).count = 0
      exact hr.2.2.2.1
    · show (vector_reset v).object_size = v.object_size
      exact hr.2.1
    · show (vector_reset v).interface = v.interface
      exact hr.2.2.1
    · show (vector_reset v).count ≤ 0
      rw [hr.2.2.2.1]
    · show (none : Option (List Byte)) = none ↔ (0 : Nat) = 0
      simp
    · show (((none : Option (List Byte))).getD []).length = 0 * (vector_reset v).object_size
      simp

lemma foldl_memWrite_length (os : Nat) (write : Nat → List Byte)
    (hw : ∀ i, (write i).length ≤ os) :
    ∀ (idxs : List Nat) (buf : List Byte), (∀ i ∈ idxs, i * os + os ≤ buf.length) →
      (idxs.foldl (fun b i => memWrite b (i * os) (write i)) buf).length = buf.length
  | [], _, _ => rfl
  | i :: rest, buf, h => by
    have hi := h i (by simp)
    have hstep : (memWrite buf (i * os) (write i)).length = buf.length := by
      apply length_memWrite
      have := hw i
      omega
    rw [List.foldl_cons,
      foldl_memWrite_length os write hw rest _
        (by intro j hj; rw [hstep]; exact h j (by simp [hj])),
      hstep]

lemma construct_fields (object_size : Nat) (options : VectorOptions) (sa : Bool)
    (alloc : Option (List Byte)) (c : Vector)
    (h : vector_construct object_size options sa alloc = some c) :
    c.object_size = object_size ∧ c.interface = options.interface ∧ c.count = 0 ∧
    c.capacity = options.capacity ∧
    (options.capacity = 0 → c.content = none) := by
  unfold vector_construct at h
  by_cases hsa : sa = false
  · rw [if_pos hsa] at h
    simp at h
  · rw [if_neg hsa] at h
    by_cases hcap : options.capacity > 0
    · rw [if_pos hcap] at h
      rcases alloc with _ | fresh
      · simp [vector_init] at h
      · simp only [vector_init] at h
        have hc := Option.some.inj h
        subst hc
        exact ⟨rfl, rfl, rfl, rfl, fun h0 => absurd h0 (by omega)⟩
    · rw [if_neg hcap] at h
      have hc := Option.some.inj h
      subst hc
      have hc0 : options.capacity = 0 := by omega
      exact ⟨rfl, rfl, rfl, hc0.symm, fun _ => rfl⟩

lemma construct_wf (object_size : Nat) (options : VectorOptions) (sa : Bool)
    (alloc : Option (List Byte)) (c : Vector)
    (halloc : 0 < options.capacity → AllocOk alloc (options.capacity * object_size))
    (h : vector_construct object_size options sa alloc = some c) :
    WF c := by
  unfold vector_construct at h
  by_cases hsa : sa = false
  · rw [if_pos hsa] at h
    simp at h
  · rw [if_neg hsa] at h
    by_cases hcap : options.capacity > 0
    · rw [if_pos hcap] at h
      rcases alloc with _ | fresh
      · simp [vector_init] at h
      · simp only [vector_init] at h
        have hc := Option.some.inj h
        subst hc
        refine ⟨Nat.zero_le _, ?_, ?_⟩
        · show some fresh = none ↔ options.capacity = 0
          simp
          omega
        · show ((some fresh).getD []).length = options.capacity * object_size
          exact halloc hcap
    · rw [if_neg hcap] at h
      have hc := Option.some.inj h
      subst hc
      exact ⟨le_refl 0, by simp, by simp⟩

lemma copy_fields (v : Vector) (shrink sa : Bool) (alloc : Option (List Byte))
    (c : Vector) (h : vector_copy v shrink sa alloc = some c) :
    c.object_size = v.object_size ∧ c.interface = v.interface ∧ c.count = v.count ∧
    c.capacity = (if shrink then v.count else v.capacity) ∧
    (shrink = true → v.count = 0 → c.content = none ∧ c.capacity = 0) := by
  unfold vector_copy at h
  by_cases hbr : (shrink && vector_empty v) = true
  · rw [if_pos hbr] at h
    have hf := construct_fields _ _ _ _ _ h
    rw [Bool.and_eq_true] at hbr
    have hsh : shrink = true := hbr.1
    have hemp : v.count = 0 := by
      have := hbr.2
      simpa [vector_empty] using this
    refine ⟨hf.1, hf.2.1, ?_, ?_, ?_⟩
    · rw [hf.2.2.1, hemp]
    · rw [hf.2.2.2.1, hsh, hemp]
      simp
    · intro _ _
      exact ⟨hf.2.2.2.2 rfl, hf.2.2.2.1⟩
  · rw [if_neg hbr] at h
    rcases hc0 : vector_construct v.object_size
        { capacity := if shrink then v.count else v.capacity,
          interface := v.interface } sa alloc with _ | c0
    · rw [hc0] at h
      simp at h
    · rw [hc0] at h
      dsimp only at h
      have hf := construct_fields _ _ _ _ _ hc0
      have hnege : ¬(shrink = true ∧ v.count = 0) := by
        intro ⟨hs, he⟩
        apply hbr
        simp [hs, vector_empty, he]
      rcases hhook : interface_copy_fn c0.interface with _ | hook
      · rw [hhook] at h
        have hc := Option.some.inj h
        subst hc
        exact ⟨hf.1, hf.2.1, rfl, hf.2.2.2.1, fun hs he => absurd ⟨hs, he⟩ hnege⟩
      · rw [hhook] at h
        have hc := Option.some.inj h
        subst hc
        exact ⟨hf.1, hf.2.1, rfl, hf.2.2.2.1, fun hs he => absurd ⟨hs, he⟩ hnege⟩

lemma push_front_wf (v : Vector) (object : List Byte) (alloc : Option (List Byte))
    (hwf : WF v) (hobj : object.length = v.object_size)
    (halloc : AllocOk alloc (grow_capacity v.capacity v.capacity * v.object_size))
    (hsucc : (vector_push_front v object alloc).1 = true) :
    WF (vector_push_front v object alloc).2 ∧
    (vector_push_front v object alloc).2.count = v.count + 1 := by
  rcases hg : grow_if_full v alloc with ⟨b, v1⟩
  rcases b
  · have hres : vector_push_front v object alloc = (false, v1) := by
      unfold vector_push_front
      rw [hg]
    rw [hres] at hsucc
    simp at hsucc
  · have hspec := grow_if_full_spec v alloc hwf halloc (by rw [hg])
    rw [hg] at hspec
    obtain ⟨hcnt, hos, hitf, hwf1, hlt, hbytes⟩ := hspec
    replace hcnt : v1.count = v.count := hcnt
    replace hlt : v.count < v1.capacity := hlt
    have hwfv1 : WF v1 := hwf1
    obtain ⟨hcnt1, hnull1, hlen1⟩ := hwfv1
    replace hcnt1 : v1.count ≤ v1.capacity := hcnt1
    replace hlen1 : (v1.content.getD []).length = v1.capacity * v1.object_size := hlen1
    have hres : vector_push_front v object alloc =
        (true, { v1 with
          content := some (memWrite
            (memmove (v1.content.getD []) v1.object_size 0 (v1.count * v1.object_size))
            0 (object.take v1.object_size)),
          count := v1.count + 1 }) := by
      unfold vector_push_front
      rw [hg]
    rw [hres]
    have hc1 : (v1.count + 1) * v1.object_size = v1.count * v1.object_size + v1.object_size :=
      Nat.succ_mul _ _
    have hcap1 : (v1.count + 1) * v1.object_size ≤ v1.capacity * v1.object_size :=
      Nat.mul_le_mul_right _ (by omega)
    have hmv : (memmove (v1.content.getD []) v1.object_size 0
        (v1.count * v1.object_size)).length = (v1.content.getD []).length :=
      length_memmove _ _ _ _ (by rw [hlen1]; omega)
    have htk : (object.take v1.object_size).length ≤ v1.object_size := by
      simp [List.length_take]
    have hcnt_cap : v1.count * v1.object_size ≤ v1.capacity * v1.object_size :=
      Nat.mul_le_mul_right _ (by omega)
    have hwl : (memWrite
        (memmove (v1.content.getD []) v1.object_size 0 (v1.count * v1.object_size))
        0 (object.take v1.object_size)).length
        = (memmove (v1.content.getD []) v1.object_size 0
          (v1.count * v1.object_size)).length := by
      apply length_memWrite
      rw [hmv, hlen1]
      omega
    refine ⟨⟨?_, ?_, ?_⟩, by simp [hcnt]⟩
    · show v1.count + 1 ≤ v1.capacity
      omega
    · show some _ = none ↔ v1.capacity = 0
      simp
      omega
    · show (memWrite
        (memmove (v1.content.getD []) v1.object_size 0 (v1.count * v1.object_size))
        0 (object.take v1.object_size)).length = v1.capacity * v1.object_size
      rw [hwl, hmv, hlen1]

lemma isSome_eq_of_none_iff (o1 o2 : Option (List Byte))
    (h : o1 = none ↔ o2 = none) : o1.isSome = o2.isSome := by
  rcases o1 with _ | a <;> rcases o2 with _ | b <;> simp_all

lemma copyWrite_length_le (v : Vector) (hook : List Byte → Option (List Byte))
    (i : Nat) : (copyWrite v hook i).length ≤ v.object_size := by
  unfold copyWrite
  rcases hook (memRead (v.content.getD []) (i * v.object_size) v.object_size) with _ | bytes
  · simp
  · simp [List.length_take]

lemma copyWrite_length_eq (v : Vector) (hook : List Byte → Option (List Byte))
    (hhlen : ∀ s b, hook s = some b → b.length = v.object_size)
    (i : Nat) : (copyWrite v hook i).length = v.object_size := by
  unfold copyWrite
  rcases hb : hook (memRead (v.content.getD []) (i * v.object_size) v.object_size)
    with _ | bytes
  · simp
  · have := hhlen _ _ hb
    simp [List.length_take, this]

lemma copy_wf (v : Vector) (shrink sa : Bool) (alloc : Option (List Byte)) (c : Vector)
    (hwf : WF v)
    (halloc : 0 < (if shrink then v.count else v.capacity) →
      AllocOk alloc ((if shrink then v.count else v.capacity) * v.object_size))
    (h : vector_copy v shrink sa alloc = some c) :
    WF c := by
  unfold vector_copy at h
  by_cases hbr : (shrink && vector_empty v) = true
  · rw [if_pos hbr] at h
    exact construct_wf _ _ _ _ _
      (by intro h0; exact absurd (show (0 : Nat) < 0 from h0) (lt_irrefl 0)) h
  · rw [if_neg hbr] at h
    rcases hc0 : vector_construct v.object_size
        { capacity := if shrink then v.count else v.capacity,
          interface := v.interface } sa alloc with _ | c0
    · rw [hc0] at h
      simp at h
    · rw [hc0] at h
      dsimp only at h
      have hf := construct_fields _ _ _ _ _ hc0
      have hwf0 : WF c0 := construct_wf _ _ _ _ _ halloc hc0
      have hosz : c0.object_size = v.object_size := hf.1
      have hcnt0 : v.count ≤ c0.capacity := by
        rw [hf.2.2.2.1]
        split
        · exact le_refl _
        · exact hwf.1
      rcases hhook : interface_copy_fn c0.interface with _ | hook
      · rw [hhook] at h
        have hc := Option.some.inj h
        subst hc
        refine ⟨?_, ?_, ?_⟩
        · show v.count ≤ c0.capacity
          exact hcnt0
        · show c0.content.map _ = none ↔ c0.capacity = 0
          rw [Option.map_eq_none']
          exact hwf0.2.1
        · show ((c0.content.map (fun buf => memWrite buf 0
            (memRead (v.content.getD []) 0 (v.count * v.object_size)))).getD []).length
            = c0.capacity * c0.object_size
          rcases hcc : c0.content with _ | buf0
          · have h0 : c0.capacity = 0 := hwf0.2.1.mp hcc
            simp [h0]
          · have hlb : buf0.length = c0.capacity * c0.object_size := by
              have hl := hwf0.2.2
              rw [hcc] at hl
              simpa using hl
            have hbl : (memRead (v.content.getD []) 0 (v.count * v.object_size)).length
                ≤ v.count * v.object_size := by
              simp [memRead, List.length_take]
            have hcnt0m : v.count * v.object_size ≤ c0.capacity * v.object_size :=
              Nat.mul_le_mul_right _ hcnt0
            simp only [Option.map_some', Option.getD_some]
            rw [length_memWrite _ _ _ (by rw [hlb, hosz]; omega), hlb]
      · rw [hhook] at h
        have hc := Option.some.inj h
        subst hc
        refine ⟨?_, ?_, ?_⟩
        · show v.count ≤ c0.capacity
          exact hcnt0
        · show c0.content.map _ = none ↔ c0.capacity = 0
          rw [Option.map_eq_none']
          exact hwf0.2.1
        · show ((c0.content.map (fun buf => (List.range v.count).foldl
            (fun b i => memWrite b (i * v.object_size) (copyWrite v hook i)) buf)).getD
              []).length = c0.capacity * c0.object_size
          rcases hcc : c0.content with _ | buf0
          · have h0 : c0.capacity = 0 := hwf0.2.1.mp hcc
            simp [h0]
          · have hlb : buf0.length = c0.capacity * c0.object_size := by
              have hl := hwf0.2.2
              rw [hcc] at hl
              simpa using hl
            simp only [Option.map_some', Option.getD_some]
            rw [foldl_memWrite_length v.object_size (copyWrite v hook)
              (copyWrite_length_le v hook) (List.range v.count) buf0 (by
                intro i hi
                have hi' : i < v.count := List.mem_range.mp hi
                have h1 := Nat.mul_le_mul_right v.object_size (by omega : i + 1 ≤ v.count)
                rw [Nat.succ_mul] at h1
                have h2 : v.count * v.object_size ≤ c0.capacity * v.object_size :=
                  Nat.mul_le_mul_right _ hcnt0
                rw [hlb, hosz]
                omega), hlb]

lemma copy_elems (v : Vector) (shrink sa : Bool) (alloc : Option (List Byte))
    (hook : List Byte → Option (List Byte)) (c : Vector) (hwf : WF v)
    (hhk : interface_copy_fn v.interface = some hook)
    (hhlen : ∀ s b, hook s = some b → b.length = v.object_size)
    (halloc : 0 < (if shrink then v.count else v.capacity) →
      AllocOk alloc ((if shrink then v.count else v.capacity) * v.object_size))
    (h : vector_copy v shrink sa alloc = some c) :
    c.count = v.count ∧
    ∀ i, i < v.count →
      vector_get_unchecked c i =
        (match hook (vector_get_unchecked v i) with
         | some bytes => bytes
         | none => List.replicate v.object_size 0) := by
  have hcw : ∀ i, copyWrite v hook i =
      (match hook (vector_get_unchecked v i) with
       | some bytes => bytes
       | none => List.replicate v.object_size 0) := by
    intro i
    unfold copyWrite vector_get_unchecked
    rcases hb : hook (memRead (v.content.getD []) (i * v.object_size) v.object_size)
      with _ | bytes
    · rfl
    · have hl := hhlen _ _ hb
      rw [← hl]
      exact List.take_length bytes
  have hfields := copy_fields v shrink sa alloc c h
  refine ⟨hfields.2.2.1, ?_⟩
  unfold vector_copy at h
  by_cases hbr : (shrink && vector_empty v) = true
  · rw [Bool.and_eq_true] at hbr
    have hemp : v.count = 0 := by
      have := hbr.2
      simpa [vector_empty] using this
    intro i hi
    rw [hemp] at hi
    exact absurd hi (Nat.not_lt_zero i)
  · rw [if_neg hbr] at h
    rcases hc0 : vector_construct v.object_size
        { capacity := if shrink then v.count else v.capacity,
          interface := v.interface } sa alloc with _ | c0
    · rw [hc0] at h
      simp at h
    · rw [hc0] at h
      dsimp only at h
      have hf := construct_fields _ _ _ _ _ hc0
      have hwf0 : WF c0 := construct_wf _ _ _ _ _ halloc hc0
      have hosz : c0.object_size = v.object_size := hf.1
      have hcnt0 : v.count ≤ c0.capacity := by
        rw [hf.2.2.2.1]
        split
        · exact le_refl _
        · exact hwf.1
      have hhk0 : interface_copy_fn c0.interface = some hook := by
        rw [hf.2.1]
        exact hhk
      rw [hhk0] at h
      have hc := Option.some.inj h
      subst hc
      intro i hi
      have hcap0pos : 0 < c0.capacity := by omega
      have hcne : ¬ c0.content = none := by
        intro hn
        have := hwf0.2.1.mp hn
        omega
      rcases hcc : c0.content with _ | buf0
      · exact absurd hcc hcne
      · have hlb : buf0.length = c0.capacity * c0.object_size := by
          have hl := hwf0.2.2
          rw [hcc] at hl
          simpa using hl
        have hbounds : ∀ j ∈ List.range v.count,
            j * v.object_size + v.object_size ≤ buf0.length := by
          intro j hj
          have hj' : j < v.count := List.mem_range.mp hj
          have h1 := Nat.mul_le_mul_right v.object_size (by omega : j + 1 ≤ v.count)
          rw [Nat.succ_mul] at h1
          have h2 : v.count * v.object_size ≤ c0.capacity * v.object_size :=
            Nat.mul_le_mul_right _ hcnt0
          rw [hlb, hosz]
          omega
        have hspec := (foldl_memWrite_spec v.object_size (copyWrite v hook)
          (copyWrite_length_eq v hook hhlen) (List.range v.count) buf0 hbounds).2 i
          (hbounds i (List.mem_range.mpr hi))
        rw [if_pos (List.mem_range.mpr hi)] at hspec
        show memRead ((Option.map (fun buf => (List.range v.count).foldl
          (fun b j => memWrite b (j * v.object_size) (copyWrite v hook j)) buf)
          (some buf0)).getD []) (i * c0.object_size) c0.object_size = _
        simp only [Option.map_some', Option.getD_some]
        rw [hosz, hspec, hcw i]

lemma grow_if_full_capacity (v : Vector) (alloc : Option (List Byte))
    (hfull : v.count = v.capacity) (hsucc : (grow_if_full v alloc).1 = true) :
    (grow_if_full v alloc).2.capacity
      = if v.capacity = 0 then 16 else 2 * v.capacity := by
  unfold grow_if_full at *
  have hfb : vector_full v = true := by simp [vector_full, hfull]
  rw [if_pos hfb] at hsucc ⊢
  rw [grow_capacity_result v v.capacity alloc hsucc]
  exact grow_capacity_double v.capacity

/-- Claim C1: every insertion (push_back, push_front, insert) that finds the
vector full calls grow with n equal to the current capacity, so a successful
growth-triggering insertion doubles a positive capacity and produces capacity
16 from an unallocated (capacity 0) vector; when the vector is not full the
insertion leaves the capacity unchanged, i.e. growth is attempted only when
count equals capacity. -/
theorem claim_C1 (v : Vector) (object : List Byte) (index : Nat)
    (alloc : Option (List Byte)) (hwf : WF v) :
    (v.count = v.capacity →
      ((vector_push_back v object alloc).1 = true →
        (vector_push_back v object alloc).2.capacity
          = if v.capacity = 0 then 16 else 2 * v.capacity) ∧
      ((vector_push_front v object alloc).1 = true →
        (vector_push_front v object alloc).2.capacity
          = if v.capacity = 0 then 16 else 2 * v.capacity) ∧
      ((vector_insert v index object alloc).1 = true →
        (vector_insert v index object alloc).2.capacity
          = if v.capacity = 0 then 16 else 2 * v.capacity)) ∧
    (v.count ≠ v.capacity →
      (vector_push_back v object alloc).2.capacity = v.capacity ∧
      (vector_push_front v object alloc).2.capacity = v.capacity ∧
      (vector_insert v index object alloc).2.capacity = v.capacity) := by
  constructor
  · intro hfull
    refine ⟨?_, ?_, ?_⟩
    · intro hs
      rcases hg : grow_if_full v alloc with ⟨b, v1⟩
      rcases b
      · have hres : vector_push_back v object alloc = (false, v1) := by
          unfold vector_push_back
          rw [hg]
        rw [hres] at hs
        simp at hs
      · have hres : vector_push_back v object alloc =
            (true, { v1 with
              content := some (memWrite (v1.content.getD [])
                (v1.count * v1.object_size) (object.take v1.object_size)),
              count := v1.count + 1 }) := by
          unfold vector_push_back
          rw [hg]
        rw [hres]
        have hcap := grow_if_full_capacity v alloc hfull (by rw [hg])
        rw [hg] at hcap
        exact hcap
    · intro hs
      rcases hg : grow_if_full v alloc with ⟨b, v1⟩
      rcases b
      · have hres : vector_push_front v object alloc = (false, v1) := by
          unfold vector_push_front
          rw [hg]
        rw [hres] at hs
        simp at hs
      · have hres : vector_push_front v object alloc =
            (true, { v1 with
              content := some (memWrite
                (memmove (v1.content.getD []) v1.object_size 0
                  (v1.count * v1.object_size))
                0 (object.take v1.object_size)),
              count := v1.count + 1 }) := by
          unfold vector_push_front
          rw [hg]
        rw [hres]
        have hcap := grow_if_full_capacity v alloc hfull (by rw [hg])
        rw [hg] at hcap
        exact hcap
    · intro hs
      by_cases hguard : (vector_empty v = true ∨ v.count ≤ index)
      · have hres : vector_insert v index object alloc = (false, v) := by
          unfold vector_insert
          rw [if_pos hguard]
        rw [hres] at hs
        simp at hs
      · rcases hg : grow_if_full v alloc with ⟨b, v1⟩
        rcases b
        · have hres : vector_insert v index object alloc = (false, v1) := by
            unfold vector_insert
            rw [if_neg hguard, hg]
          rw [hres] at hs
          simp at hs
        · have hres : vector_insert v index object alloc =
              (true, { v1 with
                content := some (memWrite
                  (memmove (v1.content.getD []) ((index + 1) * v1.object_size)
                    (index * v1.object_size) ((v1.count - index) * v1.object_size))
                  (index * v1.object_size) (object.take v1.object_size)),
                count := v1.count + 1 }) := by
            unfold vector_insert
            rw [if_neg hguard, hg]
          rw [hres]
          have hcap := grow_if_full_capacity v alloc hfull (by rw [hg])
          rw [hg] at hcap
          exact hcap
  · intro hne
    have hg : grow_if_full v alloc = (true, v) := by
      unfold grow_if_full
      rw [if_neg (by simp [vector_full]; exact hne)]
    refine ⟨?_, ?_, ?_⟩
    · have hres : vector_push_back v object alloc =
          (true, { v with
            content := some (memWrite (v.content.getD [])
              (v.count * v.object_size) (object.take v.object_size)),
            count := v.count + 1 }) := by
        unfold vector_push_back
        rw [hg]
      rw [hres]
    · have hres : vector_push_front v object alloc =
          (true, { v with
            content := some (memWrite
              (memmove (v.content.getD []) v.object_size 0
                (v.count * v.object_size))
              0 (object.take v.object_size)),
            count := v.count + 1 }) := by
        unfold vector_push_front
        rw [hg]
      rw [hres]
    · by_cases hguard : (vector_empty v = true ∨ v.count ≤ index)
      · have hres : vector_insert v index object alloc = (false, v) := by
          unfold vector_insert
          rw [if_pos hguard]
        rw [hres]
      · have hres : vector_insert v index object alloc =
            (true, { v with
              content := some (memWrite
                (memmove (v.content.getD []) ((index + 1) * v.object_size)
                  (index * v.object_size) ((v.count - index) * v.object_size))
                (index * v.object_size) (object.take v.object_size)),
              count := v.count + 1 }) := by
          unfold vector_insert
          rw [if_neg hguard, hg]
        rw [hres]

theorem claim_C1_witness :
    (vector_push_back sampleEmpty [7] (some (List.replicate 16 0))).2.capacity
      = (if sampleEmpty.capacity = 0 then 16 else 2 * sampleEmpty.capacity) ∧
    (vector_push_front sampleEmpty [7] (some (List.replicate 16 0))).2.capacity
      = (if sampleEmpty.capacity = 0 then 16 else 2 * sampleEmpty.capacity) := by
  have h := claim_C1 sampleEmpty [7] 0 (some (List.replicate 16 0)) (by decide)
  exact ⟨(h.1 rfl).1 (by decide), (h.1 rfl).2.1 (by decide)⟩

/-- Claim C2: for every vector, a failed grow(n) leaves it completely
unmodified, and for every vector an insertion (push_back, push_front, insert)
that fails — in particular because its triggered growth fails — returns false
and leaves the vector completely unmodified.  The four conjuncts quantify over
independent vectors and allocation oracles, so the grow conjunct covers
non-full vectors as well. -/
theorem claim_C2 (v w u t : Vector) (n index : Nat) (object : List Byte)
    (valloc walloc ualloc talloc : Option (List Byte))
    (h1 : (vector_grow v n valloc).1 = false)
    (h2 : (vector_push_back w object walloc).1 = false)
    (h3 : (vector_push_front u object ualloc).1 = false)
    (h4 : (vector_insert t index object talloc).1 = false) :
    (vector_grow v n valloc).2 = v ∧
    (vector_push_back w object walloc).2 = w ∧
    (vector_push_front u object ualloc).2 = u ∧
    (vector_insert t index object talloc).2 = t :=
  ⟨grow_fail v n valloc h1, push_back_fail w object walloc h2,
    push_front_fail u object ualloc h3, insert_fail t index object talloc h4⟩

theorem claim_C2_witness :
    (vector_grow sampleSlack 5 none).2 = sampleSlack ∧
    (vector_push_back sampleFull [7] none).2 = sampleFull ∧
    (vector_push_front sampleFull [7] none).2 = sampleFull ∧
    (vector_insert sampleFull 0 [7] none).2 = sampleFull :=
  claim_C2 sampleSlack sampleFull sampleFull sampleFull 5 0 [7] none none none none
    (by decide) (by decide) (by decide) (by decide)

/-- Claim C5 is violated by the code (code bug): the gap-closing memmove of
vector_pop_front and vector_discard_front copies `count * object_size` bytes
from offset `object_size` (vector.c lines 275 and 225), so its read interval
is `[object_size, (count+1)*object_size)`: it reads the bytes of slot index
`count`, beyond the live region, and when count == capacity it reads past the
end of the allocated buffer.  At the concrete full two-element vector below
the front shift reads past both bounds, while the indexed pop/discard shifts
stay inside the live region as the claim demands. -/
theorem claim_C5_code_bug :
    ((pop_front_shift sampleFull).2.1 + (pop_front_shift sampleFull).2.2
        > sampleFull.count * sampleFull.object_size) ∧
    ((pop_front_shift sampleFull).2.1 + (pop_front_shift sampleFull).2.2
        > sampleFull.capacity * sampleFull.object_size) ∧
    ((discard_front_shift sampleFull).2.1 + (discard_front_shift sampleFull).2.2
        > sampleFull.count * sampleFull.object_size) ∧
    ((discard_front_shift sampleFull).2.1 + (discard_front_shift sampleFull).2.2
        > sampleFull.capacity * sampleFull.object_size) ∧
    ((pop_shift sampleFull 0).2.1 + (pop_shift sampleFull 0).2.2
        ≤ sampleFull.count * sampleFull.object_size) ∧
    ((discard_shift sampleFull 0).2.1 + (discard_shift sampleFull 0).2.2
        ≤ sampleFull.count * sampleFull.object_size) := by
  decide

/-- Claim C6: on an empty vector, get returns null and every removal,
set and insert operation returns false with the vector (and the caller's
output buffer) completely unmodified; likewise an out-of-range index makes
every indexed operation fail with no side effects. -/
theorem claim_C6 (v w : Vector) (index windex : Nat) (object : List Byte)
    (alloc : Option (List Byte)) (hv : v.count = 0) (hw : w.count ≤ windex) :
    vector_get v index = none ∧
    vector_pop_back v object = (false, v, object) ∧
    vector_pop_front v object = (false, v, object) ∧
    vector_pop v object index = (false, v, object) ∧
    vector_discard_back v = (false, v) ∧
    vector_discard_front v = (false, v) ∧
    vector_discard v index = (false, v) ∧
    vector_set v index object = (false, v) ∧
    vector_insert v index object alloc = (false, v) ∧
    vector_get w windex = none ∧
    vector_pop w object windex = (false, w, object) ∧
    vector_discard w windex = (false, w) ∧
    vector_set w windex object = (false, w) ∧
    vector_insert w windex object alloc = (false, w) := by
  have hvemp : vector_empty v = true := by simp [vector_empty, hv]
  refine ⟨?_, ?_, ?_, ?_, ?_, ?_, ?_, ?_, ?_, ?_, ?_, ?_, ?_, ?_⟩
  · unfold vector_get
    rw [if_pos (by omega)]
  · unfold vector_pop_back
    rw [if_pos hvemp]
  · unfold vector_pop_front
    rw [if_pos hvemp]
  · unfold vector_pop
    rw [if_pos (Or.inl hvemp)]
  · unfold vector_discard_back
    rw [if_pos hvemp]
  · unfold vector_discard_front
    rw [if_pos hvemp]
  · unfold vector_discard
    rw [if_pos (Or.inl hvemp)]
  · unfold vector_set
    rw [if_pos (Or.inl hvemp)]
  · unfold vector_insert
    rw [if_pos (Or.inl hvemp)]
  · unfold vector_get
    rw [if_pos hw]
  · unfold vector_pop
    rw [if_pos (Or.inr hw)]
  · unfold vector_discard
    rw [if_pos (Or.inr hw)]
  · unfold vector_set
    rw [if_pos (Or.inr hw)]
  · unfold vector_insert
    rw [if_pos (Or.inr hw)]

theorem claim_C6_witness :
    vector_get sampleEmpty 0 = none ∧
    vector_pop_back sampleEmpty [0] = (false, sampleEmpty, [0]) ∧
    vector_pop_front sampleEmpty [0] = (false, sampleEmpty, [0]) ∧
    vector_pop sampleEmpty [0] 0 = (false, sampleEmpty, [0]) ∧
    vector_discard_back sampleEmpty = (false, sampleEmpty) ∧
    vector_discard_front sampleEmpty = (false, sampleEmpty) ∧
    vector_discard sampleEmpty 0 = (false, sampleEmpty) ∧
    vector_set sampleEmpty 0 [0] = (false, sampleEmpty) ∧
    vector_insert sampleEmpty 0 [0] none = (false, sampleEmpty) ∧
    vector_get sampleFull 5 = none ∧
    vector_pop sampleFull [0] 5 = (false, sampleFull, [0]) ∧
    vector_discard sampleFull 5 = (false, sampleFull) ∧
    vector_set sampleFull 5 [0] = (false, sampleFull) ∧
    vector_insert sampleFull 5 [0] none = (false, sampleFull) :=
  claim_C6 sampleEmpty sampleFull 0 5 [0] none rfl (by decide)

/-- Claim C3: a successful copy produces a clone with the source's
object_size, interface reference and count, whose capacity is the source's
count when shrink_to_fit is set and the source's capacity otherwise; an empty
source with shrink_to_fit yields an unallocated clone (capacity 0, null
content). -/
theorem claim_C3 (v : Vector) (shrink sa : Bool) (alloc : Option (List Byte))
    (c : Vector) (h : vector_copy v shrink sa alloc = some c) :
    c.object_size = v.object_size ∧ c.interface = v.interface ∧
    c.count = v.count ∧
    c.capacity = (if shrink then v.count else v.capacity) ∧
    (shrink = true → v.count = 0 → c.content = none ∧ c.capacity = 0) :=
  copy_fields v shrink sa alloc c h

theorem claim_C3_witness :
    sampleCloneFull.object_size = sampleFull.object_size ∧
    sampleCloneFull.interface = sampleFull.interface ∧
    sampleCloneFull.count = sampleFull.count ∧
    sampleCloneFull.capacity = (if true then sampleFull.count else sampleFull.capacity) := by
  have h := claim_C3 sampleFull true true (some [0, 0]) sampleCloneFull rfl
  exact ⟨h.1, h.2.1, h.2.2.1, h.2.2.2.1⟩

/-- Claim C4: when the interface supplies a deep-copy hook, vector_copy
invokes it once per live element in ascending index order (the loop folds
over List.range count) with the destination and source element; an element
whose hook call fails is zero-filled in the clone, the copy still succeeds,
and the clone's count equals the source's count.  In particular with an
always-failing hook every clone element is all-zero bytes. -/
theorem claim_C4 (v : Vector) (shrink sa : Bool) (alloc : Option (List Byte))
    (hook : List Byte → Option (List Byte)) (c : Vector) (i : Nat) (hwf : WF v)
    (hhk : interface_copy_fn v.interface = some hook)
    (hhlen : ∀ s b, hook s = some b → b.length = v.object_size)
    (halloc : 0 < (if shrink then v.count else v.capacity) →
      AllocOk alloc ((if shrink then v.count else v.capacity) * v.object_size))
    (h : vector_copy v shrink sa alloc = some c) (hi : i < v.count) :
    c.count = v.count ∧
    vector_get_unchecked c i =
      (match hook (vector_get_unchecked v i) with
       | some bytes => bytes
       | none => List.replicate v.object_size 0) := by
  have he := copy_elems v shrink sa alloc hook c hwf hhk hhlen halloc h
  exact ⟨he.1, he.2 i hi⟩

theorem claim_C4_witness :
    sampleHookedClone.count = sampleHooked.count ∧
    vector_get_unchecked sampleHookedClone 0 =
      (match failHook (vector_get_unchecked sampleHooked 0) with
       | some bytes => bytes
       | none => List.replicate sampleHooked.object_size 0) :=
  claim_C4 sampleHooked false true (some [3, 4]) failHook sampleHookedClone 0
    (by decide) rfl (fun _ _ hb => Option.noConfusion hb) (fun _ => by decide)
    rfl (by decide)

/-- Claim C8: on a vector with no element-operations capability, a successful
insert(i, x) followed by discard(i) restores the live elements exactly: the
count returns to its prior value and every element's bytes are unchanged at
its original index. -/
theorem claim_C8 (v : Vector) (i k : Nat) (x : List Byte)
    (alloc : Option (List Byte)) (hitf : v.interface = none) (hwf : WF v)
    (hi : i < v.count) (hx : x.length = v.object_size)
    (halloc : AllocOk alloc (grow_capacity v.capacity v.capacity * v.object_size))
    (hins : (vector_insert v i x alloc).1 = true) (hk : k < v.count) :
    (vector_discard (vector_insert v i x alloc).2 i).1 = true ∧
    (vector_discard (vector_insert v i x alloc).2 i).2.count = v.count ∧
    vector_get_unchecked (vector_discard (vector_insert v i x alloc).2 i).2 k
      = vector_get_unchecked v k := by
  obtain ⟨hcnt, hos, hitf1, hwf1, helow, helem, hehigh⟩ :=
    insert_spec v i x alloc hwf hi hx halloc hins
  have hreli : interface_release (vector_insert v i x alloc).2.interface = none := by
    rw [hitf1, hitf]
    rfl
  have hiw : i < (vector_insert v i x alloc).2.count := by omega
  obtain ⟨hd1, hd2, hd3, hd4, hd5, hdwf, hdlow, hdhigh⟩ :=
    discard_spec (vector_insert v i x alloc).2 i hreli hwf1 hiw
  refine ⟨hd1, by omega, ?_⟩
  rcases Nat.lt_or_ge k i with hki | hki
  · rw [hdlow k hki, helow k hki]
  · rw [hdhigh k hki (by omega)]
    exact hehigh k hki hk

theorem claim_C8_witness :
    (vector_discard (vector_insert sampleVec3 1 [9]
      (some (List.replicate 6 0))).2 1).1 = true ∧
    (vector_discard (vector_insert sampleVec3 1 [9]
      (some (List.replicate 6 0))).2 1).2.count = sampleVec3.count ∧
    vector_get_unchecked (vector_discard (vector_insert sampleVec3 1 [9]
      (some (List.replicate 6 0))).2 1).2 2 = vector_get_unchecked sampleVec3 2 :=
  claim_C8 sampleVec3 1 2 [9] (some (List.replicate 6 0)) rfl (by decide)
    (by decide) (by decide) (by decide) (by decide) (by decide)

/-- Claim C10: no removal operation (discard_back, discard_front, discard,
pop_back, pop_front, pop) and no reset changes the vector's capacity or its
backing buffer: the buffer stays allocated (the content pointer is neither
freed nor reallocated — no removal path calls realloc or free) and keeps its
byte size, so capacity after any removal equals capacity before it. -/
theorem claim_C10 (v : Vector) (index : Nat) (object : List Byte) (hwf : WF v) :
    ((vector_discard_back v).2.capacity = v.capacity ∧
      (vector_discard_back v).2.content.isSome = v.content.isSome ∧
      ((vector_discard_back v).2.content.getD []).length
        = (v.content.getD []).length) ∧
    ((vector_discard_front v).2.capacity = v.capacity ∧
      (vector_discard_front v).2.content.isSome = v.content.isSome ∧
      ((vector_discard_front v).2.content.getD []).length
        = (v.content.getD []).length) ∧
    ((vector_discard v index).2.capacity = v.capacity ∧
      (vector_discard v index).2.content.isSome = v.content.isSome ∧
      ((vector_discard v index).2.content.getD []).length
        = (v.content.getD []).length) ∧
    ((vector_pop_back v object).2.1.capacity = v.capacity ∧
      (vector_pop_back v object).2.1.content.isSome = v.content.isSome ∧
      ((vector_pop_back v object).2.1.content.getD []).length
        = (v.content.getD []).length) ∧
    ((vector_pop_front v object).2.1.capacity = v.capacity ∧
      (vector_pop_front v object).2.1.content.isSome = v.content.isSome ∧
      ((vector_pop_front v object).2.1.content.getD []).length
        = (v.content.getD []).length) ∧
    ((vector_pop v object index).2.1.capacity = v.capacity ∧
      (vector_pop v object index).2.1.content.isSome = v.content.isSome ∧
      ((vector_pop v object index).2.1.content.getD []).length
        = (v.content.getD []).length) ∧
    ((vector_reset v).capacity = v.capacity ∧
      (vector_reset v).content.isSome = v.content.isSome ∧
      ((vector_reset v).content.getD []).length = (v.content.getD []).length) := by
  have h1 := discard_back_frame v hwf
  have h2 := discard_front_frame v hwf
  have h3 := discard_frame v index hwf
  have h4 := pop_back_frame v object hwf
  have h5 := pop_front_frame v object hwf
  have h6 := pop_frame v object index hwf
  have h7 := reset_frame v hwf
  exact ⟨⟨h1.1, isSome_eq_of_none_iff _ _ h1.2.2.2.1, h1.2.2.2.2.1⟩,
    ⟨h2.1, isSome_eq_of_none_iff _ _ h2.2.2.2.1, h2.2.2.2.2.1⟩,
    ⟨h3.1, isSome_eq_of_none_iff _ _ h3.2.2.2.1, h3.2.2.2.2.1⟩,
    ⟨h4.1, isSome_eq_of_none_iff _ _ h4.2.2.2.1, h4.2.2.2.2.1⟩,
    ⟨h5.1, isSome_eq_of_none_iff _ _ h5.2.2.2.1, h5.2.2.2.2.1⟩,
    ⟨h6.1, isSome_eq_of_none_iff _ _ h6.2.2.2.1, h6.2.2.2.2.1⟩,
    ⟨h7.1, isSome_eq_of_none_iff _ _ h7.2.2.2.2.1, h7.2.2.2.2.2.1⟩⟩

theorem claim_C10_witness :
    ((vector_discard_back sampleFull).2.capacity = sampleFull.capacity ∧
      (vector_discard_back sampleFull).2.content.isSome = sampleFull.content.isSome ∧
      ((vector_discard_back sampleFull).2.content.getD []).length
        = (sampleFull.content.getD []).length) ∧
    ((vector_discard_front sampleFull).2.capacity = sampleFull.capacity ∧
      (vector_discard_front sampleFull).2.content.isSome = sampleFull.content.isSome ∧
      ((vector_discard_front sampleFull).2.content.getD []).length
        = (sampleFull.content.getD []).length) ∧
    ((vector_discard sampleFull 0).2.capacity = sampleFull.capacity ∧
      (vector_discard sampleFull 0).2.content.isSome = sampleFull.content.isSome ∧
      ((vector_discard sampleFull 0).2.content.getD []).length
        = (sampleFull.content.getD []).length) ∧
    ((vector_pop_back sampleFull [0]).2.1.capacity = sampleFull.capacity ∧
      (vector_pop_back sampleFull [0]).2.1.content.isSome = sampleFull.content.isSome ∧
      ((vector_pop_back sampleFull [0]).2.1.content.getD []).length
        = (sampleFull.content.getD []).length) ∧
    ((vector_pop_front sampleFull [0]).2.1.capacity = sampleFull.capacity ∧
      (vector_pop_front sampleFull [0]).2.1.content.isSome = sampleFull.content.isSome ∧
      ((vector_pop_front sampleFull [0]).2.1.content.getD []).length
        = (sampleFull.content.getD []).length) ∧
    ((vector_pop sampleFull [0] 0).2.1.capacity = sampleFull.capacity ∧
      (vector_pop sampleFull [0] 0).2.1.content.isSome = sampleFull.content.isSome ∧
      ((vector_pop sampleFull [0] 0).2.1.content.getD []).length
        = (sampleFull.content.getD []).length) ∧
    ((vector_reset sampleFull).capacity = sampleFull.capacity ∧
      (vector_reset sampleFull).content.isSome = sampleFull.content.isSome ∧
      ((vector_reset sampleFull).content.getD []).length
        = (sampleFull.content.getD []).length) :=
  claim_C10 sampleFull 0 [0] (by decide)

/-- Claim C7: every vector operation preserves the representation invariants
count ≤ capacity and content == null ⟺ capacity == 0; construction with
capacity 0 yields an unallocated vector, a successful grow makes the capacity
positive with a non-null buffer, and release restores content == null with
capacity 0. -/
theorem claim_C7 (v : Vector) (n index : Nat) (object : List Byte)
    (galloc palloc : Option (List Byte)) (cb : List Byte → List Byte)
    (cons_os : Nat) (cons_opts : VectorOptions) (cons_sa : Bool)
    (cons_alloc : Option (List Byte)) (c_cons : Vector)
    (shrink copy_sa : Bool) (copy_alloc : Option (List Byte)) (c_copy : Vector)
    (hwf : WF v) (hobj : object.length = v.object_size)
    (hgalloc : AllocOk galloc (grow_capacity v.capacity n * v.object_size))
    (hpalloc : AllocOk palloc (grow_capacity v.capacity v.capacity * v.object_size))
    (hgs : (vector_grow v n galloc).1 = true)
    (hca : 0 < cons_opts.capacity → AllocOk cons_alloc (cons_opts.capacity * cons_os))
    (hcons : vector_construct cons_os cons_opts cons_sa cons_alloc = some c_cons)
    (hcopy_alloc : 0 < (if shrink then v.count else v.capacity) →
      AllocOk copy_alloc ((if shrink then v.count else v.capacity) * v.object_size))
    (hcopy : vector_copy v shrink copy_sa copy_alloc = some c_copy) :
    WF c_cons ∧
    (cons_opts.capacity = 0 → c_cons.content = none ∧ c_cons.capacity = 0) ∧
    WF (vector_grow v n galloc).2 ∧
    0 < (vector_grow v n galloc).2.capacity ∧
    (vector_grow v n galloc).2.content.isSome = true ∧
    WF (vector_push_back v object palloc).2 ∧
    WF (vector_push_front v object palloc).2 ∧
    WF (vector_insert v index object palloc).2 ∧
    WF (vector_set v index object).2 ∧
    WF (vector_discard_back v).2 ∧
    WF (vector_discard_front v).2 ∧
    WF (vector_discard v index).2 ∧
    WF (vector_pop_back v object).2.1 ∧
    WF (vector_pop_front v object).2.1 ∧
    WF (vector_pop v object index).2.1 ∧
    WF (vector_walk v cb) ∧
    WF (vector_reset v) ∧
    (vector_reset v).count = 0 ∧
    WF (vector_release v) ∧
    (vector_release v).content = none ∧
    (vector_release v).capacity = 0 ∧
    (vector_release v).count = 0 ∧
    WF c_copy := by
  have hgrow := grow_spec v n galloc hwf hgalloc hgs
  have hgcapr := grow_capacity_result v n galloc hgs
  have hgwf : WF (vector_grow v n galloc).2 := hgrow.2.2.2.2.1
  have hgcap : 0 < (vector_grow v n galloc).2.capacity := by
    rw [hgcapr]
    exact grow_capacity_pos _ _
  have hgsome : (vector_grow v n galloc).2.content.isSome = true := by
    rcases hc : (vector_grow v n galloc).2.content with _ | b
    · have := hgwf.2.1.mp hc
      omega
    · rfl
  have hfc := construct_fields _ _ _ _ _ hcons
  have hpb : WF (vector_push_back v object palloc).2 := by
    cases hs : (vector_push_back v object palloc).1
    · rw [push_back_fail v object palloc hs]
      exact hwf
    · exact (push_back_spec v object palloc hwf hobj hpalloc hs).2.2.2.1
  have hpf : WF (vector_push_front v object palloc).2 := by
    cases hs : (vector_push_front v object palloc).1
    · rw [push_front_fail v object palloc hs]
      exact hwf
    · exact (push_front_wf v object palloc hwf hobj hpalloc hs).1
  have hin : WF (vector_insert v index object palloc).2 := by
    cases hs : (vector_insert v index object palloc).1
    · rw [insert_fail v index object palloc hs]
      exact hwf
    · by_cases hguard : (vector_empty v = true ∨ v.count ≤ index)
      · have hres : vector_insert v index object palloc = (false, v) := by
          unfold vector_insert
          rw [if_pos hguard]
        rw [hres] at hs
        simp at hs
      · have hidx : index < v.count := by
          rcases not_or.mp hguard with ⟨_, h2⟩
          omega
        exact (insert_spec v index object palloc hwf hidx hobj hpalloc hs).2.2.2.1
  have hrel := release_spec v hwf
  refine ⟨construct_wf _ _ _ _ _ hca hcons, ?_, hgwf, hgcap, hgsome, hpb, hpf, hin,
    (set_frame v index object hwf).2.2.2.2.2.2,
    (discard_back_frame v hwf).2.2.2.2.2,
    (discard_front_frame v hwf).2.2.2.2.2,
    (discard_frame v index hwf).2.2.2.2.2,
    (pop_back_frame v object hwf).2.2.2.2.2,
    (pop_front_frame v object hwf).2.2.2.2.2,
    (pop_frame v object index hwf).2.2.2.2.2,
    (walk_frame v cb hwf).2.2.2.2.2.2,
    (reset_frame v hwf).2.2.2.2.2.2,
    (reset_frame v hwf).2.2.2.1,
    hrel.2.2.2.2.2, hrel.1, hrel.2.1, hrel.2.2.1,
    copy_wf v shrink copy_sa copy_alloc c_copy hwf hcopy_alloc hcopy⟩
  intro h0
  exact ⟨hfc.2.2.2.2 h0, by rw [hfc.2.2.2.1, h0]⟩

theorem claim_C7_witness :
    WF sampleEmpty ∧
    (sampleEmpty.content = none ∧ sampleEmpty.capacity = 0) ∧
    WF (vector_grow sampleFull 1 (some [0, 0, 0])).2 ∧
    0 < (vector_grow sampleFull 1 (some [0, 0, 0])).2.capacity ∧
    (vector_grow sampleFull 1 (some [0, 0, 0])).2.content.isSome = true ∧
    WF (vector_push_back sampleFull [7] (some [0, 0, 0, 0])).2 ∧
    WF (vector_push_front sampleFull [7] (some [0, 0, 0, 0])).2 ∧
    WF (vector_insert sampleFull 0 [7] (some [0, 0, 0, 0])).2 ∧
    WF (vector_set sampleFull 0 [7]).2 ∧
    WF (vector_discard_back sampleFull).2 ∧
    WF (vector_discard_front sampleFull).2 ∧
    WF (vector_discard sampleFull 0).2 ∧
    WF (vector_pop_back sampleFull [7]).2.1 ∧
    WF (vector_pop_front sampleFull [7]).2.1 ∧
    WF (vector_pop sampleFull [7] 0).2.1 ∧
    WF (vector_walk sampleFull (fun b => b)) ∧
    WF (vector_reset sampleFull) ∧
    (vector_reset sampleFull).count = 0 ∧
    WF (vector_release sampleFull) ∧
    (vector_release sampleFull).content = none ∧
    (vector_release sampleFull).capacity = 0 ∧
    (vector_release sampleFull).count = 0 ∧
    WF sampleCloneFull := by
  have h := claim_C7 sampleFull 1 0 [7] (some [0, 0, 0]) (some [0, 0, 0, 0])
    (fun b => b) 1 { capacity := 0, interface := none } true none sampleEmpty
    false true (some [0, 0]) sampleCloneFull (by decide) (by decide) (by decide)
    (by decide) (by decide) (fun _ => trivial) rfl (fun _ => by decide) rfl
  exact ⟨h.1, h.2.1 rfl, h.2.2⟩

set_option maxHeartbeats 2000000 in
/-- Claim C9: stack push, pop, peek and empty behave exactly as the vector's
push_back, pop_back, get_back and empty (the delegation conjuncts), and
pushing x1, x2, x3 in that order then popping three times yields x3, then x2,
then x1, each byte-identical to what was pushed. -/
theorem claim_C9 (s : Stack) (x1 x2 x3 out object : List Byte)
    (a1 a2 a3 alloc : Option (List Byte))
    (hwf : WF s.vector)
    (hl1 : x1.length = s.vector.object_size)
    (hl2 : x2.length = s.vector.object_size)
    (hl3 : x3.length = s.vector.object_size)
    (hlo : out.length = s.vector.object_size)
    (ha1 : AllocOk a1 (grow_capacity s.vector.capacity s.vector.capacity
      * s.vector.object_size))
    (ha2 : AllocOk a2 (grow_capacity (stack_push s x1 a1).2.vector.capacity
      (stack_push s x1 a1).2.vector.capacity
      * (stack_push s x1 a1).2.vector.object_size))
    (ha3 : AllocOk a3 (grow_capacity
      (stack_push (stack_push s x1 a1).2 x2 a2).2.vector.capacity
      (stack_push (stack_push s x1 a1).2 x2 a2).2.vector.capacity
      * (stack_push (stack_push s x1 a1).2 x2 a2).2.vector.object_size))
    (hs1 : (stack_push s x1 a1).1 = true)
    (hs2 : (stack_push (stack_push s x1 a1).2 x2 a2).1 = true)
    (hs3 : (stack_push (stack_push (stack_push s x1 a1).2 x2 a2).2 x3 a3).1 = true) :
    (stack_push s object alloc).1 = (vector_push_back s.vector object alloc).1 ∧
    (stack_push s object alloc).2.vector = (vector_push_back s.vector object alloc).2 ∧
    (stack_pop s out).1 = (vector_pop_back s.vector out).1 ∧
    (stack_pop s out).2.1.vector = (vector_pop_back s.vector out).2.1 ∧
    (stack_pop s out).2.2 = (vector_pop_back s.vector out).2.2 ∧
    stack_empty s = vector_empty s.vector ∧
    stack_peek s = vector_get_back s.vector ∧
    (stack_pop (stack_push (stack_push (stack_push s x1 a1).2 x2 a2).2 x3 a3).2
      out).1 = true ∧
    (stack_pop (stack_push (stack_push (stack_push s x1 a1).2 x2 a2).2 x3 a3).2
      out).2.2 = x3 ∧
    (stack_pop (stack_pop (stack_push (stack_push (stack_push s x1 a1).2 x2 a2).2
      x3 a3).2 out).2.1 out).1 = true ∧
    (stack_pop (stack_pop (stack_push (stack_push (stack_push s x1 a1).2 x2 a2).2
      x3 a3).2 out).2.1 out).2.2 = x2 ∧
    (stack_pop (stack_pop (stack_pop (stack_push (stack_push (stack_push s x1 a1).2
      x2 a2).2 x3 a3).2 out).2.1 out).2.1 out).1 = true ∧
    (stack_pop (stack_pop (stack_pop (stack_push (stack_push (stack_push s x1 a1).2
      x2 a2).2 x3 a3).2 out).2.1 out).2.1 out).2.2 = x1 := by
  have hs1' : (vector_push_back s.vector x1 a1).1 = true := hs1
  have hs2' : (vector_push_back (vector_push_back s.vector x1 a1).2 x2 a2).1
      = true := hs2
  have hs3' : (vector_push_back (vector_push_back (vector_push_back s.vector
      x1 a1).2 x2 a2).2 x3 a3).1 = true := hs3
  have ha2' : AllocOk a2 (grow_capacity (vector_push_back s.vector x1 a1).2.capacity
      (vector_push_back s.vector x1 a1).2.capacity
      * (vector_push_back s.vector x1 a1).2.object_size) := ha2
  have ha3' : AllocOk a3 (grow_capacity
      (vector_push_back (vector_push_back s.vector x1 a1).2 x2 a2).2.capacity
      (vector_push_back (vector_push_back s.vector x1 a1).2 x2 a2).2.capacity
      * (vector_push_back (vector_push_back s.vector x1 a1).2 x2 a2).2.object_size)
      := ha3
  obtain ⟨hc1, ho1, hi1, hwf1, he1, hp1⟩ :=
    push_back_spec s.vector x1 a1 hwf hl1 ha1 hs1'
  obtain ⟨hc2, ho2, hi2, hwf2, he2, hp2⟩ :=
    push_back_spec (vector_push_back s.vector x1 a1).2 x2 a2 hwf1
      (by rw [hl2, ← ho1]) ha2' hs2'
  obtain ⟨hc3, ho3, hi3, hwf3, he3, hp3⟩ :=
    push_back_spec (vector_push_back (vector_push_back s.vector x1 a1).2 x2 a2).2
      x3 a3 hwf2 (by rw [hl3, ← ho1, ← ho2]) ha3' hs3'
  have hne3 : (vector_push_back (vector_push_back (vector_push_back s.vector
      x1 a1).2 x2 a2).2 x3 a3).2.count ≠ 0 := by omega
  have hos3 : (vector_push_back (vector_push_back (vector_push_back s.vector
      x1 a1).2 x2 a2).2 x3 a3).2.object_size = s.vector.object_size := by
    rw [ho3, ho2, ho1]
  have hq1 := pop_back_eq
    (vector_push_back (vector_push_back (vector_push_back s.vector
      x1 a1).2 x2 a2).2 x3 a3).2 out hne3
  have hval1 : (vector_pop_back (vector_push_back (vector_push_back
      (vector_push_back s.vector x1 a1).2 x2 a2).2 x3 a3).2 out).2.2 = x3 := by
    rw [hq1]
    have hidx : (vector_push_back (vector_push_back (vector_push_back s.vector
        x1 a1).2 x2 a2).2 x3 a3).2.count - 1
        = (vector_push_back (vector_push_back s.vector x1 a1).2 x2 a2).2.count := by
      omega
    show memWrite out 0 (vector_get_unchecked (vector_push_back (vector_push_back
      (vector_push_back s.vector x1 a1).2 x2 a2).2 x3 a3).2
      ((vector_push_back (vector_push_back (vector_push_back s.vector
        x1 a1).2 x2 a2).2 x3 a3).2.count - 1)) = x3
    rw [hidx, he3]
    exact memWrite_zero_full out x3 (by rw [hlo, hl3])
  have hflag1 : (vector_pop_back (vector_push_back (vector_push_back
      (vector_push_back s.vector x1 a1).2 x2 a2).2 x3 a3).2 out).1 = true := by
    rw [hq1]
  have hS1 : (vector_pop_back (vector_push_back (vector_push_back
      (vector_push_back s.vector x1 a1).2 x2 a2).2 x3 a3).2 out).2.1
      = { (vector_push_back (vector_push_back (vector_push_back s.vector
          x1 a1).2 x2 a2).2 x3 a3).2 with
          count := (vector_push_back (vector_push_back (vector_push_back s.vector
            x1 a1).2 x2 a2).2 x3 a3).2.count - 1 } := by
    rw [hq1]
  have hneS1 : ({ (vector_push_back (vector_push_back (vector_push_back s.vector
      x1 a1).2 x2 a2).2 x3 a3).2 with
      count := (vector_push_back (vector_push_back (vector_push_back s.vector
        x1 a1).2 x2 a2).2 x3 a3).2.count - 1 } : Vector).count ≠ 0 := by
    show (vector_push_back (vector_push_back (vector_push_back s.vector
      x1 a1).2 x2 a2).2 x3 a3).2.count - 1 ≠ 0
    omega
  have hq2 := pop_back_eq
    ({ (vector_push_back (vector_push_back (vector_push_back s.vector
        x1 a1).2 x2 a2).2 x3 a3).2 with
        count := (vector_push_back (vector_push_back (vector_push_back s.vector
          x1 a1).2 x2 a2).2 x3 a3).2.count - 1 } : Vector) out hneS1
  have hval2 : (vector_pop_back (vector_pop_back (vector_push_back
      (vector_push_back (vector_push_back s.vector x1 a1).2 x2 a2).2 x3 a3).2
      out).2.1 out).2.2 = x2 := by
    rw [hS1, hq2]
    have hidx : (vector_push_back (vector_push_back (vector_push_back s.vector
        x1 a1).2 x2 a2).2 x3 a3).2.count - 1 - 1
        = (vector_push_back s.vector x1 a1).2.count := by
      omega
    show memWrite out 0 (vector_get_unchecked (vector_push_back (vector_push_back
      (vector_push_back s.vector x1 a1).2 x2 a2).2 x3 a3).2
      ((vector_push_back (vector_push_back (vector_push_back s.vector
        x1 a1).2 x2 a2).2 x3 a3).2.count - 1 - 1)) = x2
    rw [hidx, hp3 _ (by omega), he2]
    exact memWrite_zero_full out x2 (by rw [hlo, hl2])
  have hflag2 : (vector_pop_back (vector_pop_back (vector_push_back
      (vector_push_back (vector_push_back s.vector x1 a1).2 x2 a2).2 x3 a3).2
      out).2.1 out).1 = true := by
    rw [hS1, hq2]
  have hS2 : (vector_pop_back (vector_pop_back (vector_push_back
      (vector_push_back (vector_push_back s.vector x1 a1).2 x2 a2).2 x3 a3).2
      out).2.1 out).2.1
      = { (vector_push_back (vector_push_back (vector_push_back s.vector
          x1 a1).2 x2 a2).2 x3 a3).2 with
          count := (vector_push_back (vector_push_back (vector_push_back s.vector
            x1 a1).2 x2 a2).2 x3 a3).2.count - 1 - 1 } := by
    rw [hS1, hq2]
  have hneS2 : ({ (vector_push_back (vector_push_back (vector_push_back s.vector
      x1 a1).2 x2 a2).2 x3 a3).2 with
      count := (vector_push_back (vector_push_back (vector_push_back s.vector
        x1 a1).2 x2 a2).2 x3 a3).2.count - 1 - 1 } : Vector).count ≠ 0 := by
    show (vector_push_back (vector_push_back (vector_push_back s.vector
      x1 a1).2 x2 a2).2 x3 a3).2.count - 1 - 1 ≠ 0
    omega
  have hq3 := pop_back_eq
    ({ (vector_push_back (vector_push_back (vector_push_back s.vector
        x1 a1).2 x2 a2).2 x3 a3).2 with
        count := (vector_push_back (vector_push_back (vector_push_back s.vector
          x1 a1).2 x2 a2).2 x3 a3).2.count - 1 - 1 } : Vector) out hneS2
  have hval3 : (vector_pop_back (vector_pop_back (vector_pop_back
      (vector_push_back (vector_push_back (vector_push_back s.vector x1 a1).2
      x2 a2).2 x3 a3).2 out).2.1 out).2.1 out).2.2 = x1 := by
    rw [hS2, hq3]
    have hidx : (vector_push_back (vector_push_back (vector_push_back s.vector
        x1 a1).2 x2 a2).2 x3 a3).2.count - 1 - 1 - 1 = s.vector.count := by
      omega
    show memWrite out 0 (vector_get_unchecked (vector_push_back (vector_push_back
      (vector_push_back s.vector x1 a1).2 x2 a2).2 x3 a3).2
      ((vector_push_back (vector_push_back (vector_push_back s.vector
        x1 a1).2 x2 a2).2 x3 a3).2.count - 1 - 1 - 1)) = x1
    rw [hidx, hp3 _ (by omega), hp2 _ (by omega), he1]
    exact memWrite_zero_full out x1 (by rw [hlo, hl1])
  have hflag3 : (vector_pop_back (vector_pop_back (vector_pop_back
      (vector_push_back (vector_push_back (vector_push_back s.vector x1 a1).2
      x2 a2).2 x3 a3).2 out).2.1 out).2.1 out).1 = true := by
    rw [hS2, hq3]
  exact ⟨rfl, rfl, rfl, rfl, rfl, rfl, rfl, hflag1, hval1, hflag2, hval2,
    hflag3, hval3⟩

theorem claim_C9_witness :
    (stack_pop (stack_push (stack_push (stack_push sampleStack [1]
      (some (List.replicate 16 0))).2 [2] none).2 [3] none).2 [0]).2.2 = [3] ∧
    (stack_pop (stack_pop (stack_push (stack_push (stack_push sampleStack [1]
      (some (List.replicate 16 0))).2 [2] none).2 [3] none).2 [0]).2.1 [0]).2.2
      = [2] ∧
    (stack_pop (stack_pop (stack_pop (stack_push (stack_push (stack_push
      sampleStack [1] (some (List.replicate 16 0))).2 [2] none).2 [3] none).2
      [0]).2.1 [0]).2.1 [0]).2.2 = [1] := by
  have h := claim_C9 sampleStack [1] [2] [3] [0] [4]
    (some (List.replicate 16 0)) none none none (by decide) (by decide)
    (by decide) (by decide) (by decide) (by decide) trivial trivial
    (by decide) (by decide) (by decide)
  exact ⟨h.2.2.2.2.2.2.2.2.1, h.2.2.2.2.2.2.2.2.2.2.1,
    h.2.2.2.2.2.2.2.2.2.2.2.2⟩

end Castor
